import Mathlib

/-!
Verification development for the phaser-multi-scene-lib repository.

The repository orchestrates activity transitions (`BaseGame`), coordinates
three audio channels (`AudioManager`), tracks per-activity asset loading
(`ManagedLoader`) and provides the activity base class (`BaseScene`).
This file gives a shallow embedding of those four source files and proves
the specification claims against it.

Engine collaborators (Phaser's sound objects, event emitters and loader)
are modelled explicitly where the repository code depends on them:
* a sound is an entry in a `Nat`-indexed store of `SoundState` records,
  with per-event listener lists and EventEmitter3 semantics (emit fires a
  snapshot of the listener list taken when the event is raised; `off(evt)`
  with no callback removes every listener of that event);
* promises are modelled by identifiers whose resolution count is recorded
  in the state;
* the loader is modelled by an explicit queue (see the ManagedLoader
  section below).
-/

namespace Spec2Proof

/-- Log/diagnostic messages emitted by the embedded code (console.error /
console.warn calls in the source), kept as an inductive so theorems can
talk about which diagnostic a branch produced. -/
inductive LogMsg
  /-- AudioManager.playSfx: "sfx is missing or broken" -/
  | errSfxMissing
  /-- BaseScene.playSfx: "Audio (name) is not loaded, can't play sfx" -/
  | errAudioNotLoaded (name : String)
  /-- AudioManager.playSingleVOClip: "Cannot play audio clip" -/
  | errCannotPlayClip
  /-- AudioManager.stopAllVOClips: "cannot stop audioclip" -/
  | errCannotStopClip
  /-- BaseGame.goToActivityWithArgs: "Unable to go to unknown activity" -/
  | errUnknownActivity (id : String)
  /-- ManagedLoader.audio: "Audio has no urls" -/
  | errAudioNoUrls (key : String)
  /-- ManagedLoader.preloadAudioList: "no audio paths were provided" -/
  | warnAudioEntryNoPaths (id : String)
  /-- BaseScene.doDialogue: "Unable to find VO, skipping" -/
  | errVOMissing (key : String)
deriving DecidableEq, Repr

/-! ## Sounds and listeners (engine collaborator model)

A listener attached with `on(event, fn)` is one of the two closures the
repository actually attaches: the voice-over completion handler of
`playSingleVOClip` (which calls `audio.off('complete')` and resolves the
returned promise) and the sfx self-cleanup handler of `playSfx` (which
calls `removeSFX(sfx)`). -/

/-- A listener closure attached by the repository code. -/
inductive Listener
  /-- `() => { audio.off('complete'); resolve(); }` for promise `pid`. -/
  | voComplete (pid : Nat)
  /-- `() => this.removeSFX(sfx)` capturing sound `sid`. -/
  | sfxRemove (sid : Nat)
deriving DecidableEq, Repr

/-- State of one engine sound object. -/
structure SoundState where
  playing : Bool
  mute : Bool
  loop : Bool
  /-- listeners registered for the engine 'stop' event -/
  onStop : List Listener
  /-- listeners registered for the engine 'complete' event -/
  onComplete : List Listener
deriving DecidableEq, Repr

/-- A sound that has just been created: silent, unmuted, no listeners. -/
def SoundState.fresh : SoundState :=
  { playing := false, mute := false, loop := false, onStop := [], onComplete := [] }

/-- The fields of the `AudioManager` class (AudioManager.ts). Sounds are
referenced by their index in the surrounding state's sound store.
`sfxClips` is a `Set`, modelled as a duplicate-free list; `globalSfx` is a
`Map` whose values may be null (see `preloadGlobalSfx`). -/
structure AudioMgr where
  currentVOClip : Option Nat
  currentVOClips : Option (List (Option Nat))
  sfxMuted : Bool
  musicMuted : Bool
  voMuted : Bool
  allMuted : Bool
  musicClips : List Nat
  sfxClips : List Nat
  globalSfx : List (String × Option Nat)
deriving DecidableEq, Repr

/-- Audio world: the manager's fields plus the engine sound store, the
promise ledger (how often each promise id has been resolved) and a log. -/
structure AState where
  am : AudioMgr
  sounds : Nat → SoundState
  resolvedCount : Nat → Nat
  log : List LogMsg

/-- Replace one sound's state in the store. -/
def setSound (sid : Nat) (f : SoundState → SoundState) (s : AState) : AState :=
  { s with sounds := Function.update s.sounds sid (f (s.sounds sid)) }

/-- Resolve a promise (increments its resolution counter). -/
def resolveP (pid : Nat) (s : AState) : AState :=
  { s with resolvedCount := Function.update s.resolvedCount pid (s.resolvedCount pid + 1) }

/-- Run one listener closure; `host` is the sound the event fired on. -/
def runListener (host : Nat) (l : Listener) (s : AState) : AState :=
  match l with
  | .voComplete pid =>
      -- audio.off('complete'); resolve();
      resolveP pid (setSound host (fun ss => { ss with onComplete := [] }) s)
  | .sfxRemove sid =>
      -- removeSFX: clip.off('stop'); clip.off('complete'); sfxClips.delete(clip)
      let s := setSound sid (fun ss => { ss with onStop := [], onComplete := [] }) s
      { s with am := { s.am with sfxClips := s.am.sfxClips.erase sid } }

/-- Fire a snapshot of listeners in order (EventEmitter3 emit semantics). -/
def fireAll (host : Nat) (ls : List Listener) (s : AState) : AState :=
  ls.foldl (fun st l => runListener host l st) s

/-- Engine `sound.stop()`: playback halts, then the 'stop' event is emitted
to the listeners registered at that moment. -/
def stopSound (sid : Nat) (s : AState) : AState :=
  let s := setSound sid (fun ss => { ss with playing := false }) s
  fireAll sid (s.sounds sid).onStop s

/-- Environment event: a playing sound reaches its natural end; playback
halts and the 'complete' event is emitted. -/
def completeSound (sid : Nat) (s : AState) : AState :=
  let s := setSound sid (fun ss => { ss with playing := false }) s
  fireAll sid (s.sounds sid).onComplete s

/-! ## AudioManager operations (AudioManager.ts) -/

/-- `AudioManager.stopAllVOClips` (AudioManager.ts:62-92). -/
def stopAllVOClips (s : AState) : AState :=
  let s :=
    match s.am.currentVOClip with
    | some c =>
        -- removeAllListeners('stop'); stop(); currentVOClip = null
        let s := setSound c (fun ss => { ss with onStop := [] }) s
        let s := stopSound c s
        { s with am := { s.am with currentVOClip := none } }
    | none => s
  match s.am.currentVOClips with
  | none => s
  | some clips =>
      let s := clips.foldl
        (fun st oc =>
          match oc with
          | some c =>
              -- removeAllListeners('complete'); stop if clip != currentVOClip
              let st := setSound c (fun ss => { ss with onComplete := [] }) st
              if some c ≠ st.am.currentVOClip then stopSound c st else st
          | none => { st with log := .errCannotStopClip :: st.log })
        s
      { s with am := { s.am with currentVOClips := none } }

/-- `AudioManager.playSingleVOClip` (AudioManager.ts:213-232). The promise
the source returns is modelled by the caller-supplied fresh id `pid`; the
completion listener resolves it. A falsy `audio` argument resolves the
promise immediately (`Promise.resolve()`). -/
def playSingleVOClip (audio : Option Nat) (pid : Nat) (s : AState) : AState :=
  match audio with
  | none => resolveP pid { s with log := .errCannotPlayClip :: s.log }
  | some a =>
      let s := stopAllVOClips s
      let s := { s with am := { s.am with currentVOClip := some a } }
      let s := setSound a (fun ss => { ss with mute := s.am.voMuted || s.am.allMuted }) s
      let s := setSound a
        (fun ss => { ss with onComplete := ss.onComplete ++ [Listener.voComplete pid] }) s
      setSound a (fun ss => { ss with playing := true }) s

/-- `AudioManager.stopSfx` (AudioManager.ts:171-183): each active clip has
all its 'stop' and 'complete' listeners removed, is stopped, and the set is
cleared. -/
def stopSfx (s : AState) : AState :=
  let s := s.am.sfxClips.foldl
    (fun st c =>
      stopSound c (setSound c (fun ss => { ss with onStop := [], onComplete := [] }) st))
    s
  { s with am := { s.am with sfxClips := [] } }

/-- `Set.add` on the model of the sfx set. -/
def insertSfx (x : Nat) (l : List Nat) : List Nat := if x ∈ l then l else l ++ [x]

/-- `AudioManager.playSfx` (AudioManager.ts:150-169). -/
def playSfx (sfx : Option Nat) (stop loop : Bool) (s : AState) : AState :=
  match sfx with
  | none => { s with log := .errSfxMissing :: s.log }
  | some x =>
      let s := if stop || s.am.sfxMuted then stopSfx s else s
      if s.am.sfxMuted && !loop then s
      else
        let s := setSound x
          (fun ss => { ss with playing := true, loop := loop,
                               mute := s.am.sfxMuted || s.am.allMuted }) s
        let s := { s with am := { s.am with sfxClips := insertSfx x s.am.sfxClips } }
        let s := setSound x (fun ss => { ss with onStop := ss.onStop ++ [.sfxRemove x] }) s
        setSound x (fun ss => { ss with onComplete := ss.onComplete ++ [.sfxRemove x] }) s

/-- `AudioManager.setSfxMute` (AudioManager.ts:192-202). -/
def setSfxMute (muted : Bool) (s : AState) : AState :=
  let s := { s with am := { s.am with sfxMuted := muted } }
  s.am.sfxClips.foldl
    (fun st c => setSound c (fun ss => { ss with mute := muted || st.am.allMuted }) st) s

/-! ## BaseScene (BaseScene.ts) -/

/-- First-match lookup in a string-keyed association list (models
`Map.get` / keyed caches). -/
def lookupStr {β : Type} (l : List (String × β)) (k : String) : Option β :=
  (l.find? (fun e => e.1 = k)).map (fun e => e.2)

/-- The scene-side world for `BaseScene`: the audio world plus the scene's
sound registry (`this.sound`), the audio cache (`this.cache.audio`), the
dialogue data's text fields, the optional caption handler, and a counter
used to allocate fresh promise ids. -/
structure SceneW where
  a : AState
  sceneSounds : List (String × Nat)
  audioCache : List String
  dialogueText : List (String × String)
  hasCaptionHandler : Bool
  caption : Option String
  pidCounter : Nat

/-- The sound-handle lookup performed by `BaseScene.playSfx`:
`(this.sound.get(name) as Sound) || this.game.audioManager.globalSfx.get(name)`
(a missing registry entry and a null map value are both falsy). -/
def sceneLookupSfx (w : SceneW) (name : String) : Option Nat :=
  match lookupStr w.sceneSounds name with
  | some x => some x
  | none =>
      match lookupStr w.a.am.globalSfx name with
      | some v => v
      | none => none

/-- `BaseScene.playSfx` (BaseScene.ts): note the source's guard is
`if (sound)` — a *found* handle triggers the "not loaded" error return,
and only an absent handle reaches `audioManager.playSfx(sound)`. -/
def scenePlaySfx (name : String) (w : SceneW) : SceneW :=
  match sceneLookupSfx w name with
  | some _ => { w with a := { w.a with log := .errAudioNotLoaded name :: w.a.log } }
  | none => { w with a := playSfx none false false w.a }

/-- The argument of `doDialogue`: a single VO key or an array of keys. -/
inductive DArg
  | one (key : String)
  | many (keys : List String)
deriving DecidableEq, Repr

/-- The non-array branch of `BaseScene.doDialogue`: missing-cache check,
caption update, then `await playSingleVOClip(this.sound.get(audio))`.
The await is modelled run-to-completion: the environment eventually
completes the clip, firing its 'complete' listeners. -/
def doDialogueSingle (key : String) (hideText : Bool) (w : SceneW) : SceneW :=
  if key ∈ w.audioCache then
    let w :=
      if !hideText && w.hasCaptionHandler then
        { w with caption := lookupStr w.dialogueText key }
      else w
    let clip := lookupStr w.sceneSounds key
    let a1 := playSingleVOClip clip w.pidCounter w.a
    let a2 := match clip with
      | some c => completeSound c a1
      | none => a1
    { w with a := a2, pidCounter := w.pidCounter + 1 }
  else
    { w with a := { w.a with log := .errVOMissing key :: w.a.log } }

mutual

/-- `BaseScene.doDialogue` (BaseScene.ts): on an array argument the loop
body awaits `this.doDialogue(audio, hideText)` — the *whole array*, not the
i-th element. Execution is indexed by fuel; `none` means the fuel ran out,
i.e. the call has not terminated within that many nested awaits. -/
def doDialogueFuel : Nat → DArg → Bool → SceneW → Option SceneW
  | 0, _, _, _ => none
  | Nat.succ n, DArg.many keys, hideText, w => doDialogueLoop n keys.length keys hideText w
  | Nat.succ _, DArg.one key, hideText, w => some (doDialogueSingle key hideText w)
termination_by n _ _ _ => (n, 0, 0)

/-- The `for (let i = 0; i < audio.length; ++i)` loop of `doDialogue`,
with `i` counted down; each iteration awaits `doDialogue` on the same
array. -/
def doDialogueLoop : Nat → Nat → List String → Bool → SceneW → Option SceneW
  | _, 0, _, _, w => some w
  | n, Nat.succ i, keys, hideText, w =>
      match doDialogueFuel n (DArg.many keys) hideText w with
      | none => none
      | some w2 => doDialogueLoop n i keys hideText w2
termination_by n i _ _ _ => (n, 1, i)

end

/-! ## ManagedLoader (ManagedLoader.ts)

Engine loader collaborator model: `scene.load.<kind>(key, ...)` queues a
fetch unless the engine already knows the key — Phaser's
`LoaderPlugin.addFile`/`keyExists` skips a file whose key is already in
the pending list or in that file type's target cache.  Caches are lists of
keys; a batch drain is not needed by the claims, so queued fetches simply
sit in `queue`.  A multi-file (a spine load's constituents, recorded by
the source at load time via `load.list.entries[size - 1].multiFile`) is
modelled by its list of constituent sub-files. -/

/-- The `LoadedType` union of ManagedLoader.ts:
`'json'|'atlas'|'spritesheet'|'spine'|'image'|'audio'`. -/
inductive FetchKind
  | json
  | atlas
  | spritesheet
  | spine
  | image
  | audio
deriving DecidableEq, Repr

/-- Engine file type of a multi-file constituent (the `file.type` the
spine branch of `unload` switches on; `text` covers the atlas descriptor,
which that switch skips). -/
inductive SubKind
  | json
  | image
  | text
deriving DecidableEq, Repr

/-- One constituent of an engine multi-file. -/
structure SubFile where
  kind : SubKind
  key : String
deriving DecidableEq, Repr

/-- An entry of the engine loader's pending list (`scene.load.list`):
file type, key, url, and for multi-file constituents the parent
multi-file. -/
structure QEntry where
  kind : FetchKind
  key : String
  url : String
  mf : Option (List SubFile)
deriving DecidableEq, Repr

/-- The `LoadInfo` record of ManagedLoader.ts. -/
structure LoadInfo where
  type : FetchKind
  multiFile : Option (List SubFile)
deriving DecidableEq, Repr

/-- Result of `ManagedLoader.audio` (a `Promise<Sound>`). -/
inductive AudioRes
  /-- cache hit: `Promise.resolve(this.scene.sound.get(key))` -/
  | resolvedNow (snd : Option Nat)
  /-- `Promise.reject('Audio has no urls')` -/
  | rejectedNoUrls
  /-- pending until the key's 'filecomplete' signal; `pid` names it -/
  | pending (pid : Nat)
deriving DecidableEq, Repr

/-- Loader world: the ManagedLoader's own fields (`loadedTypeByKey`,
`pendingLoad`) plus the engine caches and loader it manipulates. -/
structure MLState where
  /-- texture manager keys (`scene.textures`) -/
  textures : List String
  /-- `scene.cache.json` keys -/
  jsonCache : List String
  /-- `scene.cache.audio` keys -/
  audioCache : List String
  /-- `scene.cache.custom.spine` keys -/
  spineCache : List String
  /-- `scene.cache.custom.spineTextures` keys -/
  spineTextures : List String
  /-- sound-instance registry keys (`scene.sound`) -/
  soundRegistry : List String
  /-- the engine loader's pending list (`scene.load.list`) -/
  queue : List QEntry
  /-- `this.loadedTypeByKey` -/
  loadedTypeByKey : List (String × LoadInfo)
  /-- `this.pendingLoad` -/
  pendingLoad : Bool
  /-- 'filecomplete' listeners attached by `audio` (key, promise id) -/
  fileListeners : List (String × Nat)
  pidCounter : Nat
  log : List LogMsg
deriving DecidableEq, Repr

/-- The target cache a file kind is checked against by the engine's
duplicate-key test. -/
def kindCacheHas (s : MLState) (k : FetchKind) (key : String) : Bool :=
  match k with
  | .json => key ∈ s.jsonCache
  | .image => key ∈ s.textures
  | .atlas => key ∈ s.textures
  | .spritesheet => key ∈ s.textures
  | .spine => key ∈ s.spineCache
  | .audio => key ∈ s.audioCache

/-- Is a file of this type and key already in the pending list? -/
def queueHas (q : List QEntry) (k : FetchKind) (key : String) : Bool :=
  q.any (fun e => e.kind = k && e.key = key)

/-- Engine `LoaderPlugin.addFile`: skip a duplicate key (already pending
or already in the target cache), otherwise append to the pending list. -/
def addFile (k : FetchKind) (key url : String) (mf : Option (List SubFile))
    (s : MLState) : MLState :=
  if queueHas s.queue k key || kindCacheHas s k key then s
  else { s with queue := s.queue ++ [⟨k, key, url, mf⟩] }

/-- Set a key's entry in `loadedTypeByKey` (replace in place or append). -/
def setEntry (key : String) (v : LoadInfo) :
    List (String × LoadInfo) → List (String × LoadInfo)
  | [] => [(key, v)]
  | (k, w) :: t => if k = key then (k, v) :: t else (k, w) :: setEntry key v t

/-- `ManagedLoader.json` (ManagedLoader.ts). -/
def mlJson (key url : String) (s : MLState) : MLState :=
  if key ∈ s.jsonCache then s
  else
    let s := addFile .json key url none s
    { s with loadedTypeByKey := setEntry key ⟨.json, none⟩ s.loadedTypeByKey,
             pendingLoad := true }

/-- `ManagedLoader.atlas`: loads `url.replace('.json', '.png')` plus the
json descriptor under one key. -/
def mlAtlas (key url : String) (s : MLState) : MLState :=
  if key ∈ s.textures then s
  else
    let s := addFile .atlas key url none s
    { s with loadedTypeByKey := setEntry key ⟨.atlas, none⟩ s.loadedTypeByKey,
             pendingLoad := true }

/-- `ManagedLoader.spritesheet` (the frame config does not affect the
bookkeeping the claims are about and is carried opaquely). -/
def mlSpritesheet (key url : String) (_frameConfig : Option Nat) (s : MLState) : MLState :=
  if key ∈ s.textures then s
  else
    let s := addFile .spritesheet key url none s
    { s with loadedTypeByKey := setEntry key ⟨.spritesheet, none⟩ s.loadedTypeByKey,
             pendingLoad := true }

/-- `ManagedLoader.image`. -/
def mlImage (key url : String) (s : MLState) : MLState :=
  if key ∈ s.textures then s
  else
    let s := addFile .image key url none s
    { s with loadedTypeByKey := setEntry key ⟨.image, none⟩ s.loadedTypeByKey,
             pendingLoad := true }

/-- `ManagedLoader.multiatlas` (recorded as kind `image` by the source). -/
def mlMultiatlas (key url : String) (s : MLState) : MLState :=
  if key ∈ s.textures then s
  else
    let s := addFile .image key url none s
    { s with loadedTypeByKey := setEntry key ⟨.image, none⟩ s.loadedTypeByKey,
             pendingLoad := true }

/-- The constituents the engine's spine multi-file records for `key`
(skeleton json, atlas descriptor text, atlas page image). -/
def spineFiles (key : String) : List SubFile :=
  [⟨.json, key⟩, ⟨.text, key⟩, ⟨.image, key⟩]

/-- `ManagedLoader.spine`: after the `load.spine` call the source reads
`this.scene.load.list.entries[this.scene.load.list.size - 1].multiFile` —
the multi-file of whatever entry is *last* in the pending list — and
records it in the load entry. -/
def mlSpine (key skeleton : String) (_atlasUrl : String) (_pma : Bool) (s : MLState) : MLState :=
  if key ∈ s.spineCache then s
  else
    let s := addFile .spine key skeleton (some (spineFiles key)) s
    let lastMF : Option (List SubFile) :=
      match s.queue.getLast? with
      | some e => e.mf
      | none => none
    { s with loadedTypeByKey := setEntry key ⟨.spine, lastMF⟩ s.loadedTypeByKey,
             pendingLoad := true }

/-- `ManagedLoader.audio` (ManagedLoader.ts): cache hit resolves at once
with the registry's sound; missing urls reject immediately *before* the
load entry or `pendingLoad` is touched; otherwise the fetch is queued, the
entry recorded, and a 'filecomplete' listener registered for the returned
pending promise. -/
def mlAudio (key : String) (urls : Option (List String)) (_volume : Option Nat)
    (s : MLState) : MLState × AudioRes :=
  if key ∈ s.audioCache then
    (s, .resolvedNow (if key ∈ s.soundRegistry then some 0 else none))
  else
    match urls with
    | none => ({ s with log := .errAudioNoUrls key :: s.log }, .rejectedNoUrls)
    | some us =>
        let s := { s with pendingLoad := true }
        let s := addFile .audio key (String.intercalate "," us) none s
        let s := { s with loadedTypeByKey := setEntry key ⟨.audio, none⟩ s.loadedTypeByKey }
        let pid := s.pidCounter
        ({ s with pidCounter := pid + 1,
                  fileListeners := s.fileListeners ++ [(key, pid)] }, .pending pid)

/-- The `AudioFileData` descriptor of ManagedLoader.ts. `audio` is
`Option` so a null url list is representable. -/
structure AudioFileData where
  id : String
  audio : Option (List String)
  audioObj : Option Nat
  volume : Option Nat
deriving DecidableEq, Repr

/-- Does `needle` occur in `hay` (JS `hay.indexOf(needle) > -1`)? -/
def charsContain : List Char → List Char → Bool
  | _, [] => true
  | [], _ :: _ => false
  | c :: rest, needle =>
      (needle.isPrefixOf (c :: rest)) || charsContain rest needle

/-- `id.indexOf(kw) > -1` for strings. -/
def strContains (hay needle : String) : Bool := charsContain hay.data needle.data

/-- `ManagedLoader.preloadAudioList`: skip excluded ids, warn and skip
entries with a missing url list, skip entries with a resolved handle,
otherwise issue one audio load per entry. -/
def preloadAudioList (list : List AudioFileData) (excludeKeywords : List String)
    (s : MLState) : MLState :=
  list.foldl
    (fun st data =>
      let shouldSkip := excludeKeywords.any (fun kw => strContains data.id kw)
      if shouldSkip then st
      else
        match data.audio with
        | none => { st with log := .warnAudioEntryNoPaths data.id :: st.log }
        | some urls =>
            if data.audioObj.isSome then st
            else (mlAudio data.id (some urls) data.volume st).1)
    s

/-- Delete every occurrence of a key from a key list (engine
`cache.remove`). -/
def removeKey (k : String) (l : List String) : List String :=
  l.filter (fun x => x ≠ k)

/-- The spine branch's loop over `info.multiFile.files`: each recorded
constituent is removed from the cache matching its file type (file types
other than json and image are skipped by the switch). -/
def spineSubRemove (files : List SubFile) (s : MLState) : MLState :=
  files.foldl
    (fun st f =>
      match f.kind with
      | .json => { st with jsonCache := removeKey f.key st.jsonCache }
      | .image => { st with textures := removeKey f.key st.textures }
      | .text => st)
    s

/-- One iteration of `ManagedLoader.unload`'s loop for a single key: an
unknown key is skipped; otherwise the kind-specific reversal runs and the
load entry is deleted.  `none` models the source crashing on
`info!.multiFile!.files` when a spine entry has no recorded multi-file. -/
def unloadStep (s : MLState) (key : String) : Option MLState :=
  match lookupStr s.loadedTypeByKey key with
  | none => some s
  | some info =>
      let s? : Option MLState :=
        match info.type with
        | .image => some { s with textures := removeKey key s.textures }
        | .json => some { s with jsonCache := removeKey key s.jsonCache }
        | .audio => some { s with soundRegistry := removeKey key s.soundRegistry,
                                  audioCache := removeKey key s.audioCache }
        | .atlas => some { s with textures := removeKey key s.textures,
                                  jsonCache := removeKey key s.jsonCache }
        | .spritesheet => some { s with textures := removeKey key s.textures }
        | .spine =>
            match info.multiFile with
            | none => none
            | some files =>
                let s := spineSubRemove files s
                let s := { s with spineCache := removeKey key s.spineCache }
                some (if key ∈ s.spineTextures then
                        { s with spineTextures := removeKey key s.spineTextures }
                      else s)
      s?.map (fun s2 =>
        { s2 with loadedTypeByKey := s2.loadedTypeByKey.filter (fun e => e.1 ≠ key) })

/-- `ManagedLoader.unload(keys)`. -/
def mlUnload (keys : List String) (s : MLState) : Option MLState :=
  match keys with
  | [] => some s
  | k :: rest =>
      match unloadStep s k with
      | none => none
      | some s2 => mlUnload rest s2

/-- `Object.keys(this.loadedTypeByKey)` snapshot. -/
def tableKeys (s : MLState) : List String := s.loadedTypeByKey.map (fun e => e.1)

/-- `ManagedLoader.unloadAll()`. -/
def unloadAll (s : MLState) : Option MLState := mlUnload (tableKeys s) s

/-- Well-formedness required by `unload`'s spine branch: every spine load
entry records its multi-file (the source dereferences
`info!.multiFile!.files`). -/
def SpineWF (s : MLState) : Prop :=
  ∀ e ∈ s.loadedTypeByKey, e.2.type = FetchKind.spine → e.2.multiFile.isSome = true

instance (s : MLState) : Decidable (SpineWF s) := by
  unfold SpineWF; infer_instance

/-- The kind-specific reversal `unload` applies for one processed entry,
stated as what no longer sits in the engine caches. -/
def Reversed (key : String) (info : LoadInfo) (s : MLState) : Prop :=
  match info.type with
  | .image => ¬ key ∈ s.textures
  | .spritesheet => ¬ key ∈ s.textures
  | .json => ¬ key ∈ s.jsonCache
  | .audio => ¬ key ∈ s.soundRegistry ∧ ¬ key ∈ s.audioCache
  | .atlas => ¬ key ∈ s.textures ∧ ¬ key ∈ s.jsonCache
  | .spine =>
      ¬ key ∈ s.spineCache ∧ ¬ key ∈ s.spineTextures ∧
      ∀ files, info.multiFile = some files →
        ∀ f ∈ files, (f.kind = SubKind.json → ¬ f.key ∈ s.jsonCache) ∧
                     (f.kind = SubKind.image → ¬ f.key ∈ s.textures)

/-- Every engine cache of `s2` is included in the same cache of `s1`. -/
def CacheLe (s2 s1 : MLState) : Prop :=
  (∀ x, x ∈ s2.textures → x ∈ s1.textures) ∧
  (∀ x, x ∈ s2.jsonCache → x ∈ s1.jsonCache) ∧
  (∀ x, x ∈ s2.audioCache → x ∈ s1.audioCache) ∧
  (∀ x, x ∈ s2.spineCache → x ∈ s1.spineCache) ∧
  (∀ x, x ∈ s2.spineTextures → x ∈ s1.spineTextures) ∧
  (∀ x, x ∈ s2.soundRegistry → x ∈ s1.soundRegistry)

/-- A loader world with empty caches, empty queue and empty table. -/
def mlEmpty : MLState :=
  { textures := [], jsonCache := [], audioCache := [], spineCache := [],
    spineTextures := [], soundRegistry := [], queue := [], loadedTypeByKey := [],
    pendingLoad := false, fileListeners := [], pidCounter := 0, log := [] }

/-! ## BaseGame navigation (BaseGame.ts)

Run-to-completion model of the orchestrator's navigation methods.  The
awaits inside one transition resolve in order with no competing
transition interleaved (the guard is exactly what prevents interleaving,
and the claims below are about a single call's effect), so each method is
a state function. -/

/-- The orchestrator configuration a subclass supplies:
`getStaticConfig` returns the activity descriptor or null. -/
structure GameCfg where
  staticConfig : String → Option Unit

/-- Orchestrator state: the navigation guard, the current activity, the
scene registry (keys added via `scene.add`), interaction/keyboard resets
and a log. -/
structure GState where
  navigating : Bool
  currentActivity : Option String
  sceneRegistry : List String
  interactionEnabled : Bool
  baselineReset : Bool
  log : List LogMsg
deriving DecidableEq, Repr

/-- `BaseGame.showLoader`: disables interaction and shows the loading UI. -/
def showLoaderG (s : GState) : GState := { s with interactionEnabled := false }

/-- `BaseGame.endCurrentActivity` (BaseGame.ts:209-225): set the guard,
show the loader, shut down and remove any current activity, reset the
interaction baseline and keyboard contexts. -/
def endCurrentActivity (s : GState) : GState :=
  let s := { s with navigating := true }
  let s := showLoaderG s
  let s :=
    match s.currentActivity with
    | some _ =>
        { s with sceneRegistry := s.sceneRegistry.filter (fun k => k ≠ "activity"),
                 currentActivity := none }
    | none => s
  { s with baselineReset := true }

/-- `BaseGame.exitActivity` (BaseGame.ts:203-207). -/
def exitActivity (s : GState) : GState :=
  if s.navigating then s else endCurrentActivity s

/-- `BaseGame.startActivity`'s effect on orchestrator state (run to the
end of its synchronous tail): the scene is added and becomes current, and
the guard is cleared. -/
def startActivityG (id : String) (s : GState) : GState :=
  let s := { s with sceneRegistry := "activity" :: s.sceneRegistry,
                    currentActivity := some id }
  { s with navigating := false }

/-- `BaseGame.goToActivityWithArgs` (BaseGame.ts:236-248): guard check,
teardown, config resolution; an unknown id logs and returns (leaving the
guard as teardown set it), a known id starts the new activity. -/
def goToActivityWithArgs (cfg : GameCfg) (id : String) (s : GState) : GState :=
  if s.navigating then s
  else
    let s := endCurrentActivity s
    match cfg.staticConfig id with
    | none => { s with log := .errUnknownActivity id :: s.log }
    | some _ => startActivityG id s

/-- `BaseGame.goToActivity` (BaseGame.ts:230-234). -/
def goToActivity (cfg : GameCfg) (id : String) (s : GState) : GState :=
  if s.navigating then s else goToActivityWithArgs cfg id s

/-- A transition request issued against the orchestrator. -/
inductive NavReq
  | go (id : String)
  | leave
deriving DecidableEq, Repr

/-- Apply one transition request. -/
def applyReq (cfg : GameCfg) (s : GState) (r : NavReq) : GState :=
  match r with
  | .go id => goToActivity cfg id s
  | .leave => exitActivity s

/-! ## The transition timeline (for the temporal guard claim)

One successful `goToActivity` transition, broken into the atomic steps the
event loop executes, in source order.  The decisive ordering fact is that
`this.navigating = false` (BaseGame.ts:143) runs in the same synchronous
continuation directly after `this.scene.start(name)` (BaseGame.ts:142),
which merely *requests* that the engine start the scene: the scene's
`preload` and `create` hooks run on later engine ticks, the activity's
'loaded' event fires one settle tick after `create` (BaseScene.create),
and `scene.start()` (activation) runs only after the loader UI has been
hidden (BaseGame.ts:132-141). -/

/-- Atomic steps of one successful transition. -/
inductive NavStep
  | setGuard
  | showLoadingUi
  | awaitAsyncShutdown
  | runShutdown
  | removeOldScene
  | resetInteraction
  | resolveConfig
  | awaitHudLoaded
  | awaitCtor
  | addScene
  | runInit
  | attachLoadedListener
  | requestSceneStart
  | clearGuard
  | enginePreload
  | engineCreate
  | settleTick
  | emitLoadedEvent
  | hudSwapAndResize
  | hideLoadingUi
  | callActivityStart
deriving DecidableEq, Repr

/-- Progress flags of the transition, tracked along the timeline. -/
structure TState where
  navigating : Bool
  sceneAdded : Bool
  initDone : Bool
  preloadDone : Bool
  createDone : Bool
  loadedEmitted : Bool
  activityStarted : Bool
deriving DecidableEq, Repr

/-- Effect of one timeline step on the progress flags. -/
def execStep (s : TState) : NavStep → TState
  | .setGuard => { s with navigating := true }
  | .addScene => { s with sceneAdded := true }
  | .runInit => { s with initDone := true }
  | .clearGuard => { s with navigating := false }
  | .enginePreload => { s with preloadDone := true }
  | .engineCreate => { s with createDone := true }
  | .emitLoadedEvent => { s with loadedEmitted := true }
  | .callActivityStart => { s with activityStarted := true }
  | _ => s

/-- The steps of one successful `goToActivity` transition, in the order
the source executes them. -/
def transitionSteps : List NavStep :=
  [.setGuard, .showLoadingUi, .awaitAsyncShutdown, .runShutdown, .removeOldScene,
   .resetInteraction, .resolveConfig, .awaitHudLoaded, .awaitCtor, .addScene,
   .runInit, .attachLoadedListener, .requestSceneStart, .clearGuard,
   .enginePreload, .engineCreate, .settleTick, .emitLoadedEvent,
   .hudSwapAndResize, .hideLoadingUi, .callActivityStart]

/-- Quiescent state before the transition. -/
def t0 : TState :=
  { navigating := false, sceneAdded := false, initDone := false, preloadDone := false,
    createDone := false, loadedEmitted := false, activityStarted := false }

/-- The state after each step of the transition (first element = `t0`). -/
def navTrace : List TState := transitionSteps.scanl execStep t0

/-- The new activity's setup is in flight: its scene has been added but
activation (`scene.start()`) has not happened yet. -/
def setupInFlight (t : TState) : Bool := t.sceneAdded && !t.activityStarted

/-! ## Concrete example states -/

/-- A freshly constructed `AudioManager`. -/
def amInit : AudioMgr :=
  { currentVOClip := none, currentVOClips := none, sfxMuted := false,
    musicMuted := false, voMuted := false, allMuted := false,
    musicClips := [], sfxClips := [], globalSfx := [] }

/-- Audio world with a fresh manager and fresh sounds. -/
def aInit : AState :=
  { am := amInit, sounds := fun _ => SoundState.fresh,
    resolvedCount := fun _ => 0, log := [] }

/-- A fresh scene world. -/
def w0 : SceneW :=
  { a := aInit, sceneSounds := [], audioCache := [], dialogueText := [],
    hasCaptionHandler := false, caption := none, pidCounter := 0 }

/-- A scene world whose sound registry holds a sound for key "x". -/
def wFound : SceneW := { w0 with sceneSounds := [("x", 5)] }

/-- Voice scenario: sound 0 is A, sound 1 is B; play A (promise 1), then
play B (promise 2). -/
def voRun2 : AState := playSingleVOClip (some 1) 2 (playSingleVOClip (some 0) 1 aInit)

/-- Continuation of `voRun2`: A is played again (promise 3) and then
completes, which fires the listener the second `playSingleVOClip` call
left attached to A. -/
def voRun3 : AState := completeSound 0 (playSingleVOClip (some 0) 3 voRun2)

/-- Sfx scenario: the channel is muted while three clips (10, 11, 12) are
active. -/
def sfx3 : AState :=
  { aInit with
    am := { amInit with sfxMuted := true, sfxClips := [10, 11, 12] },
    sounds := fun i =>
      if i ∈ [10, 11, 12] then
        { SoundState.fresh with
          playing := true,
          onStop := [Listener.sfxRemove i],
          onComplete := [Listener.sfxRemove i] }
      else SoundState.fresh }

/-- Loader scenario refuting the universal no-op claim: a spine load, an
unrelated image load, then a duplicate spine load for the same key. -/
def c5run1 : MLState := mlSpine "s" "s.json" "s.atlas" false mlEmpty

/-- `c5run1` followed by an image load for a different key. -/
def c5run2 : MLState := mlImage "i" "i.png" c5run1

/-- `c5run2` followed by the duplicate spine load. -/
def c5run3 : MLState := mlSpine "s" "s.json" "s.atlas" false c5run2

/-- A loader world holding one load of each kind, for the unload witness. -/
def mlLoaded : MLState :=
  mlSpine "sp" "sp.json" "sp.atlas" false
    ((mlAudio "au" (some ["au.mp3"]) none
      (mlAtlas "at" "at.json"
        (mlSpritesheet "sh" "sh.png" none
          (mlImage "im" "im.png"
            (mlJson "js" "js.json" mlEmpty))))).1)

/-- `mlLoaded` after its batch has drained: every key sits in its
kind-specific cache (engine model of a completed load). -/
def mlDrained : MLState :=
  { mlLoaded with
    queue := [], pendingLoad := false,
    textures := ["im", "sh", "at", "sp"],
    jsonCache := ["js", "at", "sp"],
    audioCache := ["au"],
    spineCache := ["sp"],
    spineTextures := ["sp"],
    soundRegistry := ["au"] }

/-- The preload scenario of the malformed-urls claim. -/
def c8run : MLState :=
  preloadAudioList
    [{ id := "a", audio := some ["a.mp3"], audioObj := none, volume := none },
     { id := "b", audio := none, audioObj := none, volume := none }] [] mlEmpty

/-- Orchestrator config that knows only the main menu. -/
def cfg0 : GameCfg := ⟨fun id => if id = "main-menu" then some () else none⟩

/-- An orchestrator state mid-transition (guard set). -/
def gNav : GState :=
  { navigating := true, currentActivity := some "main-menu",
    sceneRegistry := ["hud", "activity"], interactionEnabled := true,
    baselineReset := false, log := [] }

/-- An idle orchestrator state with an activity running (guard clear). -/
def gIdle : GState :=
  { navigating := false, currentActivity := some "main-menu",
    sceneRegistry := ["hud", "activity"], interactionEnabled := true,
    baselineReset := false, log := [] }

/-! ## Theorems -/

/-- A `goToActivity` call against a set guard returns before doing
anything. -/
theorem goToActivity_guard (cfg : GameCfg) (id : String) (s : GState)
    (h : s.navigating = true) : goToActivity cfg id s = s := by
  simp [goToActivity, h]

/-- An `exitActivity` call against a set guard returns before doing
anything. -/
theorem exitActivity_guard (s : GState) (h : s.navigating = true) :
    exitActivity s = s := by
  simp [exitActivity, h]

/-- Any sequence of transition requests against a set guard leaves the
state untouched. -/
theorem foldReq_guard (cfg : GameCfg) (s : GState) (h : s.navigating = true) :
    ∀ reqs : List NavReq, reqs.foldl (applyReq cfg) s = s := by
  intro reqs
  induction reqs with
  | nil => rfl
  | cons r rs ih =>
      cases r with
      | go id =>
          simpa [List.foldl, applyReq, goToActivity_guard cfg id s h] using ih
      | leave =>
          simpa [List.foldl, applyReq, exitActivity_guard s h] using ih

/-- Claim C1: while the navigation guard is set, every transition request
(`goToActivity` or `exitActivity`) returns immediately as a no-op leaving
the orchestrator state (current activity, guard, scene registry — in fact
every field) unchanged, and therefore any sequence of such requests
leaves the state unchanged: at most one transition executes at a time. -/
theorem c1_guard_drops_requests (cfg : GameCfg) (s : GState)
    (h : s.navigating = true) :
    (∀ id, goToActivity cfg id s = s) ∧ exitActivity s = s ∧
      ∀ reqs : List NavReq, reqs.foldl (applyReq cfg) s = s :=
  ⟨fun id => goToActivity_guard cfg id s h, exitActivity_guard s h,
   foldReq_guard cfg s h⟩

/-- Witness for C1 at a concrete mid-transition state. -/
theorem c1_guard_drops_requests_witness :
    (∀ id, goToActivity cfg0 id gNav = gNav) ∧ exitActivity gNav = gNav ∧
      ∀ reqs : List NavReq, reqs.foldl (applyReq cfg0) gNav = gNav :=
  c1_guard_drops_requests cfg0 gNav rfl

/-- Claim C2: a `goToActivity` call from a clear guard whose id has no
static configuration tears the current activity down, logs the
diagnostic, returns with no activity active — and leaves the navigation
guard set, so every subsequent sequence of `goToActivity`/`exitActivity`
requests is a no-op. -/
theorem c2_unknown_id_blocks_navigation (cfg : GameCfg) (s : GState) (id : String)
    (hg : s.navigating = false) (hc : cfg.staticConfig id = none) :
    (goToActivity cfg id s).navigating = true ∧
    (goToActivity cfg id s).currentActivity = none ∧
    (goToActivity cfg id s).log = LogMsg.errUnknownActivity id :: s.log ∧
    (s.currentActivity.isSome → "activity" ∉ (goToActivity cfg id s).sceneRegistry) ∧
    ∀ reqs : List NavReq,
      reqs.foldl (applyReq cfg) (goToActivity cfg id s) = goToActivity cfg id s := by
  have hrun : goToActivity cfg id s
      = { endCurrentActivity s with log := LogMsg.errUnknownActivity id :: (endCurrentActivity s).log } := by
    simp [goToActivity, goToActivityWithArgs, hg, hc]
  cases hcur : s.currentActivity with
  | none =>
      refine ⟨?_, ?_, ?_, ?_, ?_⟩ <;>
        simp [hrun, endCurrentActivity, showLoaderG, hcur]
      exact foldReq_guard cfg _ (by simp [hrun, endCurrentActivity, showLoaderG, hcur])
  | some act =>
      refine ⟨?_, ?_, ?_, ?_, ?_⟩ <;>
        simp [hrun, endCurrentActivity, showLoaderG, hcur]
      exact foldReq_guard cfg _ (by simp [hrun, endCurrentActivity, showLoaderG, hcur])

/-- Witness for C2: going to an unknown id from a concrete idle state. -/
theorem c2_unknown_id_blocks_navigation_witness :
    (goToActivity cfg0 "bogus" gIdle).navigating = true ∧
    (goToActivity cfg0 "bogus" gIdle).currentActivity = none ∧
    (goToActivity cfg0 "bogus" gIdle).log = LogMsg.errUnknownActivity "bogus" :: gIdle.log ∧
    (gIdle.currentActivity.isSome → "activity" ∉ (goToActivity cfg0 "bogus" gIdle).sceneRegistry) ∧
    ∀ reqs : List NavReq,
      reqs.foldl (applyReq cfg0) (goToActivity cfg0 "bogus" gIdle)
        = goToActivity cfg0 "bogus" gIdle :=
  c2_unknown_id_blocks_navigation cfg0 gIdle "bogus" rfl (by decide)

/-- Claim C3, counterexample: it is not true that the guard is set at
every point of the transition at which the new activity's setup is still
in flight — right after `this.navigating = false` (which the source runs
directly after requesting the engine scene start) the new scene's
`preload`, `create`, 'loaded' signal and activation are all still
pending. -/
theorem c3_counterexample :
    ¬ (∀ t ∈ navTrace, setupInFlight t = true → t.navigating = true) := by
  decide

/-- Claim C3 as amended: the guard is set when teardown begins and stays
true through teardown, configuration resolution and the new activity's
`initialize`; it is cleared immediately after the engine is asked to
start the new scene — before `preload`, `create`, the 'loaded' signal and
activation have run, so the guard is false during the tail of the new
activity's setup. -/
theorem c3_amended_guard_window :
    ((navTrace.drop 1).take 13).all (fun t => t.navigating) = true ∧
    ((navTrace.drop 14).all (fun t => !t.navigating)) = true ∧
    (navTrace.getD 14 t0).initDone = true ∧
    (navTrace.getD 14 t0).preloadDone = false ∧
    (navTrace.getD 14 t0).createDone = false ∧
    (navTrace.getD 14 t0).loadedEmitted = false ∧
    (navTrace.getD 14 t0).activityStarted = false := by
  decide

/-- Claim C10: on any non-empty array argument, `doDialogue` recurses on
the whole array in every loop iteration, so however much fuel the
execution is given it never finishes (and in particular never reaches
the single-clip branch that would play a clip). -/
theorem c10_doDialogue_array_diverges (fuel : Nat) (keys : List String)
    (hne : keys ≠ []) (hideText : Bool) (w : SceneW) :
    doDialogueFuel fuel (DArg.many keys) hideText w = none := by
  induction fuel with
  | zero => simp [doDialogueFuel]
  | succ n ih =>
      cases keys with
      | nil => exact absurd rfl hne
      | cons k ks =>
          rw [doDialogueFuel, List.length_cons, doDialogueLoop, ih]

/-- Witness for C10 on a concrete one-element array. -/
theorem c10_doDialogue_array_diverges_witness :
    doDialogueFuel 4 (DArg.many ["a"]) false w0 = none :=
  c10_doDialogue_array_diverges 4 ["a"] (by decide) false w0

/-! ### Audio-channel lemmas -/

@[simp] theorem setSound_am (i : Nat) (f : SoundState → SoundState) (s : AState) :
    (setSound i f s).am = s.am := rfl

@[simp] theorem setSound_log (i : Nat) (f : SoundState → SoundState) (s : AState) :
    (setSound i f s).log = s.log := rfl

@[simp] theorem setSound_resolvedCount (i : Nat) (f : SoundState → SoundState) (s : AState) :
    (setSound i f s).resolvedCount = s.resolvedCount := rfl

theorem setSound_sounds (i : Nat) (f : SoundState → SoundState) (s : AState) (j : Nat) :
    (setSound i f s).sounds j = if j = i then f (s.sounds i) else s.sounds j := by
  simp [setSound, Function.update_apply]

@[simp] theorem fireAll_nil (host : Nat) (s : AState) : fireAll host [] s = s := rfl

@[simp] theorem resolveP_sounds (p : Nat) (s : AState) :
    (resolveP p s).sounds = s.sounds := rfl

@[simp] theorem resolveP_am (p : Nat) (s : AState) : (resolveP p s).am = s.am := rfl

@[simp] theorem resolveP_log (p : Nat) (s : AState) : (resolveP p s).log = s.log := rfl

theorem resolveP_resolvedCount (p : Nat) (s : AState) (q : Nat) :
    (resolveP p s).resolvedCount q
      = if q = p then s.resolvedCount p + 1 else s.resolvedCount q := by
  simp [resolveP, Function.update_apply]

/-- With an empty voice channel, `stopAllVOClips` does nothing. -/
theorem stopAll_quiescent (s : AState) (hvo : s.am.currentVOClip = none)
    (hvos : s.am.currentVOClips = none) : stopAllVOClips s = s := by
  simp [stopAllVOClips, hvo, hvos]

/-- With a single current voice clip and no queued sequence,
`stopAllVOClips` removes the clip's 'stop' listeners, stops it (firing
nothing, since those listeners were just removed) and clears the channel.
Its 'complete' listeners are untouched. -/
theorem stopAll_single (s : AState) (c : Nat) (hc : s.am.currentVOClip = some c)
    (hvos : s.am.currentVOClips = none) :
    stopAllVOClips s =
      { s with am := { s.am with currentVOClip := none },
               sounds := Function.update s.sounds c
                 { s.sounds c with playing := false, onStop := [] } } := by
  simp [stopAllVOClips, hc, hvos, stopSound, fireAll, setSound,
        Function.update_same, Function.update_idem]

/-- `playSingleVOClip` from an empty voice channel: the clip becomes
current, gets the channel mute, the completion listener, and plays. -/
theorem playSingle_fromQuiescent (s : AState) (a p1 : Nat)
    (hvo : s.am.currentVOClip = none) (hvos : s.am.currentVOClips = none) :
    playSingleVOClip (some a) p1 s =
      { s with am := { s.am with currentVOClip := some a },
               sounds := Function.update s.sounds a
                 { s.sounds a with
                   mute := s.am.voMuted || s.am.allMuted,
                   onComplete := (s.sounds a).onComplete ++ [Listener.voComplete p1],
                   playing := true } } := by
  simp [playSingleVOClip, stopAll_quiescent s hvo hvos, setSound,
        Function.update_same, Function.update_idem]

/-- `playSingleVOClip` over a currently active clip `c`: `c` is stopped
with its 'stop' listeners removed (its 'complete' listeners survive), and
the new clip becomes current and plays. -/
theorem playSingle_fromActive (s : AState) (b c p : Nat) (hbc : b ≠ c)
    (hc : s.am.currentVOClip = some c) (hvos : s.am.currentVOClips = none) :
    playSingleVOClip (some b) p s =
      { s with am := { s.am with currentVOClip := some b },
               sounds := Function.update
                 (Function.update s.sounds c { s.sounds c with playing := false, onStop := [] }) b
                 { s.sounds b with
                   mute := s.am.voMuted || s.am.allMuted,
                   onComplete := (s.sounds b).onComplete ++ [Listener.voComplete p],
                   playing := true } } := by
  simp [playSingleVOClip, stopAll_single s c hc hvos, setSound,
        Function.update_same, Function.update_idem, Function.update_noteq hbc]

/-- Completing a sound whose only 'complete' listener is a voice-over
resolver: the listener detaches itself and resolves its promise. -/
theorem completeSound_single (s : AState) (b p : Nat)
    (h : (s.sounds b).onComplete = [Listener.voComplete p]) :
    completeSound b s =
      resolveP p (setSound b (fun ss => { ss with onComplete := [] })
        (setSound b (fun ss => { ss with playing := false }) s)) := by
  simp [completeSound, fireAll, runListener, setSound_sounds, h]

/-- Completing a sound with no 'complete' listeners only halts it. -/
theorem completeSound_nil (s : AState) (b : Nat)
    (h : (s.sounds b).onComplete = []) :
    completeSound b s = setSound b (fun ss => { ss with playing := false }) s := by
  simp [completeSound, setSound_sounds, h]

/-- Claim C4, counterexample: after `playSingleVOClip(A)` (promise 1) and
then `playSingleVOClip(B)` (promise 2), A's completion listener has *not*
been detached — `stopAllVOClips` only removes the current clip's 'stop'
listeners — and if A is later replayed and completes, A's original
promise resolves after all. -/
theorem c4_counterexample_listener_leak :
    (voRun2.sounds 0).onComplete = [Listener.voComplete 1] ∧
    ¬ ((voRun2.sounds 0).onComplete = []) ∧
    voRun3.resolvedCount 1 = 1 := by
  decide

/-- Claim C4 as amended: `playSingleVOClip(B)` after `playSingleVOClip(A)`
(voice channel initially empty, `A ≠ B`, fresh sounds and promises) stops
A after removing A's 'stop' listeners, so nothing fires during the
switch and A's promise stays unresolved — but A's completion listener
remains attached rather than being detached; afterwards the channel's
current clip is exactly B, B is playing with its own completion listener,
and B's promise resolves exactly once, on B's completion signal, whose
listener detaches itself upon firing. -/
theorem c4_amended_vo_switch (s : AState) (a b p1 p2 : Nat)
    (hab : a ≠ b)
    (hvo : s.am.currentVOClip = none) (hvos : s.am.currentVOClips = none)
    (haC : (s.sounds a).onComplete = []) (haS : (s.sounds a).onStop = [])
    (hbC : (s.sounds b).onComplete = []) (hbS : (s.sounds b).onStop = [])
    (hp1 : s.resolvedCount p1 = 0) (hp2 : s.resolvedCount p2 = 0) (hpp : p1 ≠ p2) :
    (playSingleVOClip (some b) p2 (playSingleVOClip (some a) p1 s)).am.currentVOClip = some b ∧
    ((playSingleVOClip (some b) p2 (playSingleVOClip (some a) p1 s)).sounds a).playing = false ∧
    ((playSingleVOClip (some b) p2 (playSingleVOClip (some a) p1 s)).sounds a).onComplete
      = [Listener.voComplete p1] ∧
    ((playSingleVOClip (some b) p2 (playSingleVOClip (some a) p1 s)).sounds a).onStop = [] ∧
    (playSingleVOClip (some b) p2 (playSingleVOClip (some a) p1 s)).resolvedCount p1 = 0 ∧
    ((playSingleVOClip (some b) p2 (playSingleVOClip (some a) p1 s)).sounds b).playing = true ∧
    ((playSingleVOClip (some b) p2 (playSingleVOClip (some a) p1 s)).sounds b).onComplete
      = [Listener.voComplete p2] ∧
    (completeSound b (playSingleVOClip (some b) p2 (playSingleVOClip (some a) p1 s))).resolvedCount p2 = 1 ∧
    (completeSound b (playSingleVOClip (some b) p2 (playSingleVOClip (some a) p1 s))).resolvedCount p1 = 0 ∧
    ((completeSound b (playSingleVOClip (some b) p2 (playSingleVOClip (some a) p1 s))).sounds b).onComplete = [] ∧
    (completeSound b (completeSound b (playSingleVOClip (some b) p2 (playSingleVOClip (some a) p1 s)))).resolvedCount p2 = 1 := by
  have hba : b ≠ a := fun h => hab h.symm
  rw [playSingle_fromQuiescent s a p1 hvo hvos]
  rw [playSingle_fromActive _ b a p2 hba (by simp) (by simp [hvos])]
  refine ⟨by simp, ?_, ?_, ?_, ?_, ?_, ?_, ?_, ?_, ?_, ?_⟩ <;>
    simp [Function.update_apply, hab, hba, haC, haS, hbC, hbS, hp1, hp2, hpp,
          completeSound_single, completeSound_nil, resolveP_resolvedCount,
          setSound_sounds]

/-- Witness for the amended C4 at sounds 0 and 1 of the fresh world. -/
theorem c4_amended_vo_switch_witness :
    (playSingleVOClip (some 1) 2 (playSingleVOClip (some 0) 1 aInit)).am.currentVOClip = some 1 ∧
    ((playSingleVOClip (some 1) 2 (playSingleVOClip (some 0) 1 aInit)).sounds 0).playing = false ∧
    ((playSingleVOClip (some 1) 2 (playSingleVOClip (some 0) 1 aInit)).sounds 0).onComplete
      = [Listener.voComplete 1] ∧
    ((playSingleVOClip (some 1) 2 (playSingleVOClip (some 0) 1 aInit)).sounds 0).onStop = [] ∧
    (playSingleVOClip (some 1) 2 (playSingleVOClip (some 0) 1 aInit)).resolvedCount 1 = 0 ∧
    ((playSingleVOClip (some 1) 2 (playSingleVOClip (some 0) 1 aInit)).sounds 1).playing = true ∧
    ((playSingleVOClip (some 1) 2 (playSingleVOClip (some 0) 1 aInit)).sounds 1).onComplete
      = [Listener.voComplete 2] ∧
    (completeSound 1 (playSingleVOClip (some 1) 2 (playSingleVOClip (some 0) 1 aInit))).resolvedCount 2 = 1 ∧
    (completeSound 1 (playSingleVOClip (some 1) 2 (playSingleVOClip (some 0) 1 aInit))).resolvedCount 1 = 0 ∧
    ((completeSound 1 (playSingleVOClip (some 1) 2 (playSingleVOClip (some 0) 1 aInit))).sounds 1).onComplete = [] ∧
    (completeSound 1 (completeSound 1 (playSingleVOClip (some 1) 2 (playSingleVOClip (some 0) 1 aInit)))).resolvedCount 2 = 1 :=
  c4_amended_vo_switch aInit 0 1 1 2 (by decide) rfl rfl rfl rfl rfl rfl rfl rfl
    (by decide)

/-- One iteration of `stopSfx`'s loop: the clip's listeners are removed
first, so stopping it fires nothing. -/
theorem stopSfx_step (st : AState) (c : Nat) :
    stopSound c (setSound c (fun ss => { ss with onStop := [], onComplete := [] }) st)
      = { st with
          sounds := Function.update st.sounds c
            { st.sounds c with playing := false, onStop := [], onComplete := [] } } := by
  simp [stopSound, setSound, fireAll, Function.update_same, Function.update_idem]

/-- The `stopSfx` loop, folded over any clip list, only rewrites sounds. -/
theorem stopSfxFold_am (l : List Nat) (st : AState) :
    (l.foldl (fun st c =>
        stopSound c (setSound c (fun ss => { ss with onStop := [], onComplete := [] }) st)) st).am
      = st.am := by
  induction l generalizing st with
  | nil => rfl
  | cons d t ih => simp only [List.foldl_cons]; rw [stopSfx_step]; exact ih _

/-- The `stopSfx` loop leaves the log alone. -/
theorem stopSfxFold_log (l : List Nat) (st : AState) :
    (l.foldl (fun st c =>
        stopSound c (setSound c (fun ss => { ss with onStop := [], onComplete := [] }) st)) st).log
      = st.log := by
  induction l generalizing st with
  | nil => rfl
  | cons d t ih => simp only [List.foldl_cons]; rw [stopSfx_step]; exact ih _

/-- Sounds not in the clip list are untouched by the `stopSfx` loop. -/
theorem stopSfxFold_sounds_notMem (l : List Nat) (st : AState) (c : Nat) (hc : c ∉ l) :
    (l.foldl (fun st c =>
        stopSound c (setSound c (fun ss => { ss with onStop := [], onComplete := [] }) st)) st).sounds c
      = st.sounds c := by
  induction l generalizing st with
  | nil => rfl
  | cons d t ih =>
      simp only [List.foldl_cons]
      rw [stopSfx_step]
      rw [ih _ (fun h => hc (List.mem_cons_of_mem d h))]
      have hcd : c ≠ d := fun h => hc (by rw [h]; exact List.mem_cons_self d t)
      exact Function.update_noteq hcd _ _

/-- Every sound in the clip list ends the `stopSfx` loop stopped, with no
listeners. -/
theorem stopSfxFold_sounds_mem (l : List Nat) (st : AState) (c : Nat) (hc : c ∈ l) :
    (l.foldl (fun st c =>
        stopSound c (setSound c (fun ss => { ss with onStop := [], onComplete := [] }) st)) st).sounds c
      = { st.sounds c with playing := false, onStop := [], onComplete := [] } := by
  induction l generalizing st with
  | nil => exact absurd hc (List.not_mem_nil c)
  | cons d t ih =>
      simp only [List.foldl_cons]
      rw [stopSfx_step]
      by_cases hct : c ∈ t
      · rw [ih _ hct]
        by_cases hcd : c = d
        · subst hcd; simp [Function.update_same]
        · simp [Function.update_noteq hcd]
      · have hcd : c = d := by
          rcases List.mem_cons.mp hc with h | h
          · exact h
          · exact absurd h hct
        subst hcd
        rw [stopSfxFold_sounds_notMem t _ c hct]
        simp [Function.update_same]

/-- `stopSfx` characterised: the active set empties, active clips are
stopped with their listeners removed, other sounds and all other state
are untouched. -/
theorem stopSfx_char (s : AState) :
    (stopSfx s).am = { s.am with sfxClips := [] } ∧
    (stopSfx s).log = s.log ∧
    (∀ c ∈ s.am.sfxClips, (stopSfx s).sounds c
        = { s.sounds c with playing := false, onStop := [], onComplete := [] }) ∧
    (∀ c, c ∉ s.am.sfxClips → (stopSfx s).sounds c = s.sounds c) := by
  refine ⟨?_, ?_, fun c hc => ?_, fun c hc => ?_⟩
  · simp [stopSfx, stopSfxFold_am]
  · simp [stopSfx, stopSfxFold_log]
  · simp [stopSfx, stopSfxFold_sounds_mem _ _ _ hc]
  · simp [stopSfx, stopSfxFold_sounds_notMem _ _ _ hc]

/-- With the sfx channel muted, a non-looping `playSfx` reduces to
`stopSfx`: the stop-all pass runs, then the muted one-shot is suppressed
before play. -/
theorem playSfx_muted_oneshot (s : AState) (x : Nat) (hm : s.am.sfxMuted = true) :
    playSfx (some x) false false s = stopSfx s := by
  have hms : (stopSfx s).am.sfxMuted = true := by
    rw [(stopSfx_char s).1]; exact hm
  simp [playSfx, hm, hms]

/-- Claim C7: with the sfx channel muted, `playSfx` of a non-null,
non-looping clip first stops every currently active one-shot (removing
their listeners) and returns without starting the new clip: the
active-sfx set is empty afterwards, every previously active clip has
stopped, and a clip that was not in the active set — in particular the
new one — is untouched. -/
theorem c7_muted_sfx_suppressed (s : AState) (x : Nat) (hm : s.am.sfxMuted = true) :
    (playSfx (some x) false false s).am = { s.am with sfxClips := [] } ∧
    (∀ c ∈ s.am.sfxClips, ((playSfx (some x) false false s).sounds c).playing = false) ∧
    (∀ c, c ∉ s.am.sfxClips → (playSfx (some x) false false s).sounds c = s.sounds c) ∧
    (x ∉ s.am.sfxClips → (playSfx (some x) false false s).sounds x = s.sounds x) := by
  rw [playSfx_muted_oneshot s x hm]
  obtain ⟨h1, _, h3, h4⟩ := stopSfx_char s
  exact ⟨h1, fun c hc => by rw [h3 c hc], h4, fun hx => h4 x hx⟩

/-- Witness for C7: three active clips (10, 11, 12) under a muted
channel; clip 13 is requested non-looping. -/
theorem c7_muted_sfx_suppressed_witness :
    (playSfx (some 13) false false sfx3).am = { sfx3.am with sfxClips := [] } ∧
    (∀ c ∈ sfx3.am.sfxClips, ((playSfx (some 13) false false sfx3).sounds c).playing = false) ∧
    (∀ c, c ∉ sfx3.am.sfxClips → (playSfx (some 13) false false sfx3).sounds c = sfx3.sounds c) ∧
    (13 ∉ sfx3.am.sfxClips → (playSfx (some 13) false false sfx3).sounds 13 = sfx3.sounds 13) :=
  c7_muted_sfx_suppressed sfx3 13 rfl

/-- Claim C9: `BaseScene.playSfx` is inverted — a *found* sound handle
triggers the "not loaded" error return, an *absent* handle is forwarded
to `AudioManager.playSfx`, which logs the missing-sfx error and does
nothing; in every case no sound's state changes and in particular none
starts playing. -/
theorem c9_scenePlaySfx_never_plays (w : SceneW) (name : String) :
    ((sceneLookupSfx w name).isSome = true →
        scenePlaySfx name w
          = { w with a := { w.a with log := .errAudioNotLoaded name :: w.a.log } }) ∧
    ((sceneLookupSfx w name).isSome = false →
        scenePlaySfx name w
          = { w with a := { w.a with log := .errSfxMissing :: w.a.log } }) ∧
    (∀ i, (scenePlaySfx name w).a.sounds i = w.a.sounds i) ∧
    (scenePlaySfx name w).a.am = w.a.am := by
  cases h : sceneLookupSfx w name <;> simp [scenePlaySfx, h, playSfx]

/-- Witness for C9: a registered name logs "not loaded" and plays
nothing; an unregistered name logs "sfx missing" and plays nothing. -/
theorem c9_scenePlaySfx_never_plays_witness :
    scenePlaySfx "x" wFound
      = { wFound with a := { wFound.a with log := .errAudioNotLoaded "x" :: wFound.a.log } } ∧
    scenePlaySfx "x" w0
      = { w0 with a := { w0.a with log := .errSfxMissing :: w0.a.log } } :=
  ⟨(c9_scenePlaySfx_never_plays wFound "x").1 rfl,
   (c9_scenePlaySfx_never_plays w0 "x").2.1 rfl⟩

theorem setEntry_idem (k : String) (v : LoadInfo) :
    ∀ t : List (String × LoadInfo), setEntry k v (setEntry k v t) = setEntry k v t := by
  intro t
  induction t with
  | nil => simp [setEntry]
  | cons e rest ih =>
      by_cases h : e.1 = k
      · simp [setEntry, h]
      · simp [setEntry, h, ih]

theorem lookupStr_setEntry (k : String) (v : LoadInfo) (t : List (String × LoadInfo)) :
    lookupStr (setEntry k v t) k = some v := by
  induction t with
  | nil => simp [setEntry, lookupStr]
  | cons e rest ih =>
      by_cases h : e.1 = k
      · simp [setEntry, h, lookupStr]
      · simp [setEntry, h, lookupStr, List.find?]
        simpa [lookupStr] using ih

theorem addFile_jsonCache (kd : FetchKind) (k u : String) (mf : Option (List SubFile))
    (s : MLState) : (addFile kd k u mf s).jsonCache = s.jsonCache := by
  unfold addFile; split <;> rfl

theorem addFile_textures (kd : FetchKind) (k u : String) (mf : Option (List SubFile))
    (s : MLState) : (addFile kd k u mf s).textures = s.textures := by
  unfold addFile; split <;> rfl

theorem addFile_audioCache (kd : FetchKind) (k u : String) (mf : Option (List SubFile))
    (s : MLState) : (addFile kd k u mf s).audioCache = s.audioCache := by
  unfold addFile; split <;> rfl

theorem addFile_spineCache (kd : FetchKind) (k u : String) (mf : Option (List SubFile))
    (s : MLState) : (addFile kd k u mf s).spineCache = s.spineCache := by
  unfold addFile; split <;> rfl

theorem addFile_table (kd : FetchKind) (k u : String) (mf : Option (List SubFile))
    (s : MLState) : (addFile kd k u mf s).loadedTypeByKey = s.loadedTypeByKey := by
  unfold addFile; split <;> rfl

theorem addFile_pendingLoad (kd : FetchKind) (k u : String) (mf : Option (List SubFile))
    (s : MLState) : (addFile kd k u mf s).pendingLoad = s.pendingLoad := by
  unfold addFile; split <;> rfl

theorem queueHas_append_self (q : List QEntry) (kd : FetchKind) (k u : String)
    (mf : Option (List SubFile)) :
    queueHas (q ++ [⟨kd, k, u, mf⟩]) kd k = true := by
  simp [queueHas, List.any_append]

theorem addFile_hasAfter (kd : FetchKind) (k u : String) (mf : Option (List SubFile))
    (s : MLState) (hc : kindCacheHas s kd k = false) :
    queueHas (addFile kd k u mf s).queue kd k = true := by
  by_cases hq : queueHas s.queue kd k = true
  · unfold addFile
    split
    · exact hq
    · exact queueHas_append_self _ _ _ _ _
  · simp only [Bool.not_eq_true] at hq
    simp [addFile, hq, hc, queueHas_append_self]

theorem mlSetAgain (s1 : MLState) (k : String) (v : LoadInfo)
    (ht : setEntry k v s1.loadedTypeByKey = s1.loadedTypeByKey)
    (hp : s1.pendingLoad = true) :
    ({ s1 with loadedTypeByKey := setEntry k v s1.loadedTypeByKey,
               pendingLoad := true } : MLState) = s1 := by
  cases s1
  simp_all

theorem mlJson_idem (k u : String) (s : MLState) :
    mlJson k u (mlJson k u s) = mlJson k u s := by
  by_cases hc : k ∈ s.jsonCache
  · simp [mlJson, hc]
  · have hcache : (mlJson k u s).jsonCache = s.jsonCache := by
      simp [mlJson, hc, addFile_jsonCache]
    have hq : queueHas (mlJson k u s).queue FetchKind.json k = true := by
      have hqq : (mlJson k u s).queue = (addFile .json k u none s).queue := by
        simp [mlJson, hc]
      rw [hqq]
      exact addFile_hasAfter .json k u none s (by simp [kindCacheHas, hc])
    have htbl : (mlJson k u s).loadedTypeByKey
        = setEntry k ⟨.json, none⟩ s.loadedTypeByKey := by
      simp [mlJson, hc, addFile_table]
    have hp : (mlJson k u s).pendingLoad = true := by simp [mlJson, hc]
    have haf : addFile .json k u none (mlJson k u s) = mlJson k u s := by
      simp [addFile, hq]
    conv_lhs => rw [mlJson]
    rw [if_neg (by rw [hcache]; exact hc), haf]
    exact mlSetAgain _ k _ (by rw [htbl, setEntry_idem]) hp



theorem mlImage_idem (k u : String) (s : MLState) :
    mlImage k u (mlImage k u s) = mlImage k u s := by
  by_cases hc : k ∈ s.textures
  · simp [mlImage, hc]
  · have hcache : (mlImage k u s).textures = s.textures := by
      simp [mlImage, hc, addFile_textures]
    have hq : queueHas (mlImage k u s).queue FetchKind.image k = true := by
      have hqq : (mlImage k u s).queue = (addFile .image k u none s).queue := by
        simp [mlImage, hc]
      rw [hqq]
      exact addFile_hasAfter .image k u none s (by simp [kindCacheHas, hc])
    have htbl : (mlImage k u s).loadedTypeByKey
        = setEntry k ⟨.image, none⟩ s.loadedTypeByKey := by
      simp [mlImage, hc, addFile_table]
    have hp : (mlImage k u s).pendingLoad = true := by simp [mlImage, hc]
    have haf : addFile .image k u none (mlImage k u s) = mlImage k u s := by
      simp [addFile, hq]
    conv_lhs => rw [mlImage]
    rw [if_neg (by rw [hcache]; exact hc), haf]
    exact mlSetAgain _ k _ (by rw [htbl, setEntry_idem]) hp

theorem mlSpritesheet_idem (k u : String) (fc : Option Nat) (s : MLState) :
    mlSpritesheet k u fc (mlSpritesheet k u fc s) = mlSpritesheet k u fc s := by
  by_cases hc : k ∈ s.textures
  · simp [mlSpritesheet, hc]
  · have hcache : (mlSpritesheet k u fc s).textures = s.textures := by
      simp [mlSpritesheet, hc, addFile_textures]
    have hq : queueHas (mlSpritesheet k u fc s).queue FetchKind.spritesheet k = true := by
      have hqq : (mlSpritesheet k u fc s).queue = (addFile .spritesheet k u none s).queue := by
        simp [mlSpritesheet, hc]
      rw [hqq]
      exact addFile_hasAfter .spritesheet k u none s (by simp [kindCacheHas, hc])
    have htbl : (mlSpritesheet k u fc s).loadedTypeByKey
        = setEntry k ⟨.spritesheet, none⟩ s.loadedTypeByKey := by
      simp [mlSpritesheet, hc, addFile_table]
    have hp : (mlSpritesheet k u fc s).pendingLoad = true := by simp [mlSpritesheet, hc]
    have haf : addFile .spritesheet k u none (mlSpritesheet k u fc s) = mlSpritesheet k u fc s := by
      simp [addFile, hq]
    conv_lhs => rw [mlSpritesheet]
    rw [if_neg (by rw [hcache]; exact hc), haf]
    exact mlSetAgain _ k _ (by rw [htbl, setEntry_idem]) hp

theorem mlAtlas_idem (k u : String) (s : MLState) :
    mlAtlas k u (mlAtlas k u s) = mlAtlas k u s := by
  by_cases hc : k ∈ s.textures
  · simp [mlAtlas, hc]
  · have hcache : (mlAtlas k u s).textures = s.textures := by
      simp [mlAtlas, hc, addFile_textures]
    have hq : queueHas (mlAtlas k u s).queue FetchKind.atlas k = true := by
      have hqq : (mlAtlas k u s).queue = (addFile .atlas k u none s).queue := by
        simp [mlAtlas, hc]
      rw [hqq]
      exact addFile_hasAfter .atlas k u none s (by simp [kindCacheHas, hc])
    have htbl : (mlAtlas k u s).loadedTypeByKey
        = setEntry k ⟨.atlas, none⟩ s.loadedTypeByKey := by
      simp [mlAtlas, hc, addFile_table]
    have hp : (mlAtlas k u s).pendingLoad = true := by simp [mlAtlas, hc]
    have haf : addFile .atlas k u none (mlAtlas k u s) = mlAtlas k u s := by
      simp [addFile, hq]
    conv_lhs => rw [mlAtlas]
    rw [if_neg (by rw [hcache]; exact hc), haf]
    exact mlSetAgain _ k _ (by rw [htbl, setEntry_idem]) hp

theorem mlMultiatlas_idem (k u : String) (s : MLState) :
    mlMultiatlas k u (mlMultiatlas k u s) = mlMultiatlas k u s := by
  by_cases hc : k ∈ s.textures
  · simp [mlMultiatlas, hc]
  · have hcache : (mlMultiatlas k u s).textures = s.textures := by
      simp [mlMultiatlas, hc, addFile_textures]
    have hq : queueHas (mlMultiatlas k u s).queue FetchKind.image k = true := by
      have hqq : (mlMultiatlas k u s).queue = (addFile .image k u none s).queue := by
        simp [mlMultiatlas, hc]
      rw [hqq]
      exact addFile_hasAfter .image k u none s (by simp [kindCacheHas, hc])
    have htbl : (mlMultiatlas k u s).loadedTypeByKey
        = setEntry k ⟨.image, none⟩ s.loadedTypeByKey := by
      simp [mlMultiatlas, hc, addFile_table]
    have hp : (mlMultiatlas k u s).pendingLoad = true := by simp [mlMultiatlas, hc]
    have haf : addFile .image k u none (mlMultiatlas k u s) = mlMultiatlas k u s := by
      simp [addFile, hq]
    conv_lhs => rw [mlMultiatlas]
    rw [if_neg (by rw [hcache]; exact hc), haf]
    exact mlSetAgain _ k _ (by rw [htbl, setEntry_idem]) hp



theorem addFile_noop (kd : FetchKind) (k u : String) (mf : Option (List SubFile))
    (s : MLState) (hq : queueHas s.queue kd k = true) : addFile kd k u mf s = s := by
  simp [addFile, hq]

theorem mlAudio_second (k : String) (urls : List String) (v2 : Option Nat) (s1 : MLState)
    (hc1 : ¬ k ∈ s1.audioCache) (hq : queueHas s1.queue FetchKind.audio k = true) :
    (mlAudio k (some urls) v2 s1).1.queue = s1.queue ∧
    (mlAudio k (some urls) v2 s1).1.loadedTypeByKey
      = setEntry k ⟨FetchKind.audio, none⟩ s1.loadedTypeByKey := by
  have hq' : queueHas ({ s1 with pendingLoad := true } : MLState).queue FetchKind.audio k = true := hq
  constructor <;> simp [mlAudio, hc1, addFile_noop _ _ _ _ _ hq']

theorem mlAudio_again (k : String) (urls : List String) (v1 v2 : Option Nat) (s : MLState) :
    (mlAudio k (some urls) v2 (mlAudio k (some urls) v1 s).1).1.queue
      = (mlAudio k (some urls) v1 s).1.queue ∧
    (mlAudio k (some urls) v2 (mlAudio k (some urls) v1 s).1).1.loadedTypeByKey
      = (mlAudio k (some urls) v1 s).1.loadedTypeByKey := by
  by_cases hc : k ∈ s.audioCache
  · simp [mlAudio, hc]
  · have hq : queueHas ((mlAudio k (some urls) v1 s).1.queue) FetchKind.audio k = true := by
      have hqq : (mlAudio k (some urls) v1 s).1.queue
          = (addFile .audio k (String.intercalate "," urls) none
              { s with pendingLoad := true }).queue := by
        simp [mlAudio, hc]
      rw [hqq]
      exact addFile_hasAfter _ _ _ _ _ (by simp [kindCacheHas, hc])
    have hcache : ¬ k ∈ (mlAudio k (some urls) v1 s).1.audioCache := by
      have : (mlAudio k (some urls) v1 s).1.audioCache = s.audioCache := by
        simp [mlAudio, hc, addFile_audioCache]
      rw [this]; exact hc
    have htbl : (mlAudio k (some urls) v1 s).1.loadedTypeByKey
        = setEntry k ⟨.audio, none⟩ s.loadedTypeByKey := by
      simp [mlAudio, hc, addFile_table]
    obtain ⟨h1, h2⟩ := mlAudio_second k urls v2 (mlAudio k (some urls) v1 s).1 hcache hq
    exact ⟨h1, by rw [h2, htbl, setEntry_idem]⟩

theorem mlSpine_second (k sk atl : String) (pma : Bool) (s1 : MLState)
    (hc1 : ¬ k ∈ s1.spineCache) (hq : queueHas s1.queue FetchKind.spine k = true) :
    (mlSpine k sk atl pma s1).queue = s1.queue ∧
    ∃ mf, lookupStr (mlSpine k sk atl pma s1).loadedTypeByKey k
      = some ⟨FetchKind.spine, mf⟩ := by
  constructor
  · simp [mlSpine, hc1, addFile_noop _ _ _ _ _ hq]
  · simp only [mlSpine, if_neg hc1, addFile_noop _ _ _ _ _ hq]
    exact ⟨_, lookupStr_setEntry _ _ _⟩

theorem mlSpine_again (k sk atl : String) (pma : Bool) (s : MLState) :
    (mlSpine k sk atl pma (mlSpine k sk atl pma s)).queue
      = (mlSpine k sk atl pma s).queue ∧
    (¬ k ∈ s.spineCache →
      ∃ mf, lookupStr (mlSpine k sk atl pma (mlSpine k sk atl pma s)).loadedTypeByKey k
        = some ⟨FetchKind.spine, mf⟩) := by
  by_cases hc : k ∈ s.spineCache
  · exact ⟨by simp [mlSpine, hc], fun h => absurd hc h⟩
  · have hq : queueHas ((mlSpine k sk atl pma s).queue) FetchKind.spine k = true := by
      have hqq : (mlSpine k sk atl pma s).queue
          = (addFile .spine k sk (some (spineFiles k)) s).queue := by
        simp [mlSpine, hc]
      rw [hqq]
      exact addFile_hasAfter _ _ _ _ _ (by simp [kindCacheHas, hc])
    have hcache : ¬ k ∈ (mlSpine k sk atl pma s).spineCache := by
      have : (mlSpine k sk atl pma s).spineCache = s.spineCache := by
        simp [mlSpine, hc, addFile_spineCache]
      rw [this]; exact hc
    obtain ⟨h1, h2⟩ := mlSpine_second k sk atl pma (mlSpine k sk atl pma s) hcache hq
    exact ⟨h1, fun _ => h2⟩

/-- Claim C5, counterexample: a duplicate spine load does *not* leave the
load-entry table unchanged.  After `spine "s"`, `image "i"`, `spine "s"`
(same key, no unload in between) the duplicate call queues no new fetch,
but — because the source re-reads the *last* pending loader entry's
multi-file — it overwrites the recorded spine auxiliary handle with the
image entry's (absent) one, changing the load entry for "s". -/
theorem c5_counterexample_spine_aux_clobbered :
    lookupStr c5run2.loadedTypeByKey "s" = some ⟨.spine, some (spineFiles "s")⟩ ∧
    c5run3.queue = c5run2.queue ∧
    lookupStr c5run3.loadedTypeByKey "s" = some ⟨.spine, none⟩ ∧
    ¬ (c5run3.loadedTypeByKey = c5run2.loadedTypeByKey) := by
  decide

/-- Claim C5 as amended: loading the same key twice without an
intervening unload issues exactly one fetch for every kind — the engine
loader skips a key that is already pending or cached, and each kind's
cache check short-circuits a cached key — and for json, image,
spritesheet, atlas and multiatlas the second call is a complete no-op
(the state is unchanged); for audio the second call queues no new fetch
and leaves the load-entry table unchanged (it does register a fresh
completion listener); for spine the second call queues no new fetch and
keeps a spine-kind entry for the key, but re-records the auxiliary
multi-file handle from the most recently queued loader entry, which can
differ from the original when other loads were queued in between. -/
theorem c5_amended_duplicate_load (s : MLState) (k u sk atl : String)
    (fc vol : Option Nat) (urls : List String) (pma : Bool) :
    mlJson k u (mlJson k u s) = mlJson k u s ∧
    mlImage k u (mlImage k u s) = mlImage k u s ∧
    mlSpritesheet k u fc (mlSpritesheet k u fc s) = mlSpritesheet k u fc s ∧
    mlAtlas k u (mlAtlas k u s) = mlAtlas k u s ∧
    mlMultiatlas k u (mlMultiatlas k u s) = mlMultiatlas k u s ∧
    ((mlAudio k (some urls) vol (mlAudio k (some urls) vol s).1).1.queue
        = (mlAudio k (some urls) vol s).1.queue ∧
      (mlAudio k (some urls) vol (mlAudio k (some urls) vol s).1).1.loadedTypeByKey
        = (mlAudio k (some urls) vol s).1.loadedTypeByKey) ∧
    ((mlSpine k sk atl pma (mlSpine k sk atl pma s)).queue
        = (mlSpine k sk atl pma s).queue ∧
      (¬ k ∈ s.spineCache →
        ∃ mf, lookupStr (mlSpine k sk atl pma (mlSpine k sk atl pma s)).loadedTypeByKey k
          = some ⟨FetchKind.spine, mf⟩)) :=
  ⟨mlJson_idem k u s, mlImage_idem k u s, mlSpritesheet_idem k u fc s,
   mlAtlas_idem k u s, mlMultiatlas_idem k u s, mlAudio_again k urls vol vol s,
   mlSpine_again k sk atl pma s⟩

/-- Witness for the amended C5 on the empty loader world, with the spine
implication discharged. -/
theorem c5_amended_duplicate_load_witness :
    mlJson "k" "u" (mlJson "k" "u" mlEmpty) = mlJson "k" "u" mlEmpty ∧
    mlImage "k" "u" (mlImage "k" "u" mlEmpty) = mlImage "k" "u" mlEmpty ∧
    mlSpritesheet "k" "u" none (mlSpritesheet "k" "u" none mlEmpty)
      = mlSpritesheet "k" "u" none mlEmpty ∧
    mlAtlas "k" "u" (mlAtlas "k" "u" mlEmpty) = mlAtlas "k" "u" mlEmpty ∧
    mlMultiatlas "k" "u" (mlMultiatlas "k" "u" mlEmpty) = mlMultiatlas "k" "u" mlEmpty ∧
    ((mlAudio "k" (some ["a.mp3"]) none (mlAudio "k" (some ["a.mp3"]) none mlEmpty).1).1.queue
        = (mlAudio "k" (some ["a.mp3"]) none mlEmpty).1.queue ∧
      (mlAudio "k" (some ["a.mp3"]) none (mlAudio "k" (some ["a.mp3"]) none mlEmpty).1).1.loadedTypeByKey
        = (mlAudio "k" (some ["a.mp3"]) none mlEmpty).1.loadedTypeByKey) ∧
    ((mlSpine "k" "sk" "atl" false (mlSpine "k" "sk" "atl" false mlEmpty)).queue
        = (mlSpine "k" "sk" "atl" false mlEmpty).queue ∧
      ∃ mf, lookupStr (mlSpine "k" "sk" "atl" false (mlSpine "k" "sk" "atl" false mlEmpty)).loadedTypeByKey "k"
        = some ⟨FetchKind.spine, mf⟩) := by
  obtain ⟨h1, h2, h3, h4, h5, h6, h7, h8⟩ :=
    c5_amended_duplicate_load mlEmpty "k" "u" "sk" "atl" none none ["a.mp3"] false
  exact ⟨h1, h2, h3, h4, h5, h6, h7, h8 (by decide)⟩

/-- Claim C8: for a key not in the audio cache, `audio(key, urls)` with a
missing url list fails immediately with the invalid-request rejection,
logging the diagnostic and recording no load entry (only the log
changes); and `preloadAudioList` with one well-formed and one
null-`audio` entry fetches the former, records only the former in the
load table, and skips the latter with a warning. -/
theorem c8_missing_audio_urls (s : MLState) (k : String) (vol : Option Nat)
    (hk : ¬ k ∈ s.audioCache) :
    mlAudio k none vol s
      = ({ s with log := .errAudioNoUrls k :: s.log }, AudioRes.rejectedNoUrls) ∧
    queueHas c8run.queue FetchKind.audio "a" = true ∧
    lookupStr c8run.loadedTypeByKey "a" = some ⟨.audio, none⟩ ∧
    lookupStr c8run.loadedTypeByKey "b" = none ∧
    LogMsg.warnAudioEntryNoPaths "b" ∈ c8run.log :=
  ⟨by simp [mlAudio, hk], by decide, by decide, by decide, by decide⟩

/-- Witness for C8 at the empty loader world. -/
theorem c8_missing_audio_urls_witness :
    mlAudio "x" none none mlEmpty
      = ({ mlEmpty with log := .errAudioNoUrls "x" :: mlEmpty.log }, AudioRes.rejectedNoUrls) ∧
    queueHas c8run.queue FetchKind.audio "a" = true ∧
    lookupStr c8run.loadedTypeByKey "a" = some ⟨.audio, none⟩ ∧
    lookupStr c8run.loadedTypeByKey "b" = none ∧
    LogMsg.warnAudioEntryNoPaths "b" ∈ c8run.log :=
  c8_missing_audio_urls mlEmpty "x" none (by decide)

theorem removeKey_not_mem (k : String) (l : List String) : ¬ k ∈ removeKey k l := by
  simp [removeKey]

theorem removeKey_sub (k x : String) (l : List String) (h : x ∈ removeKey k l) : x ∈ l :=
  List.mem_of_mem_filter h

theorem CacheLe_refl (s : MLState) : CacheLe s s :=
  ⟨fun _ h => h, fun _ h => h, fun _ h => h, fun _ h => h, fun _ h => h, fun _ h => h⟩

theorem CacheLe_trans (s3 s2 s1 : MLState) (h32 : CacheLe s3 s2) (h21 : CacheLe s2 s1) :
    CacheLe s3 s1 :=
  ⟨fun x h => h21.1 x (h32.1 x h),
   fun x h => h21.2.1 x (h32.2.1 x h),
   fun x h => h21.2.2.1 x (h32.2.2.1 x h),
   fun x h => h21.2.2.2.1 x (h32.2.2.2.1 x h),
   fun x h => h21.2.2.2.2.1 x (h32.2.2.2.2.1 x h),
   fun x h => h21.2.2.2.2.2 x (h32.2.2.2.2.2 x h)⟩

theorem subStep_le (st : MLState) (f : SubFile) :
    CacheLe ((match f.kind with
      | SubKind.json => { st with jsonCache := removeKey f.key st.jsonCache }
      | SubKind.image => { st with textures := removeKey f.key st.textures }
      | SubKind.text => st) : MLState) st := by
  cases f with
  | mk kind key =>
      cases kind
      · exact ⟨fun _ h => h, fun x h => removeKey_sub _ _ _ h, fun _ h => h,
               fun _ h => h, fun _ h => h, fun _ h => h⟩
      · exact ⟨fun x h => removeKey_sub _ _ _ h, fun _ h => h, fun _ h => h,
               fun _ h => h, fun _ h => h, fun _ h => h⟩
      · exact CacheLe_refl st

theorem subStep_table (st : MLState) (f : SubFile) :
    ((match f.kind with
      | SubKind.json => { st with jsonCache := removeKey f.key st.jsonCache }
      | SubKind.image => { st with textures := removeKey f.key st.textures }
      | SubKind.text => st) : MLState).loadedTypeByKey = st.loadedTypeByKey := by
  cases f with
  | mk kind key => cases kind <;> rfl

theorem spineSubRemove_cons (g : SubFile) (t : List SubFile) (s : MLState) :
    spineSubRemove (g :: t) s
      = spineSubRemove t
          ((match g.kind with
            | SubKind.json => { s with jsonCache := removeKey g.key s.jsonCache }
            | SubKind.image => { s with textures := removeKey g.key s.textures }
            | SubKind.text => s) : MLState) := rfl

theorem spineSubRemove_le (files : List SubFile) (s : MLState) :
    CacheLe (spineSubRemove files s) s := by
  induction files generalizing s with
  | nil => exact CacheLe_refl s
  | cons g t ih =>
      rw [spineSubRemove_cons]
      exact CacheLe_trans _ _ _ (ih _) (subStep_le s g)

theorem spineSubRemove_table (files : List SubFile) (s : MLState) :
    (spineSubRemove files s).loadedTypeByKey = s.loadedTypeByKey := by
  induction files generalizing s with
  | nil => rfl
  | cons g t ih =>
      rw [spineSubRemove_cons, ih _]
      exact subStep_table s g

theorem spineSubRemove_removes (files : List SubFile) (s : MLState) :
    ∀ f ∈ files,
      (f.kind = SubKind.json → ¬ f.key ∈ (spineSubRemove files s).jsonCache) ∧
      (f.kind = SubKind.image → ¬ f.key ∈ (spineSubRemove files s).textures) := by
  induction files generalizing s with
  | nil => intro f hf; exact absurd hf (List.not_mem_nil f)
  | cons g t ih =>
      intro f hf
      rw [spineSubRemove_cons]
      rcases List.mem_cons.mp hf with hfg | hft
      · subst hfg
        constructor
        · intro hk hmem
          have hsub := (spineSubRemove_le t _).2.1 _ hmem
          revert hsub
          cases hg : f.kind with
          | json =>
              simp only [hg]
              exact removeKey_not_mem f.key s.jsonCache
          | image => exact absurd hg (by rw [hk]; simp)
          | text => exact absurd hg (by rw [hk]; simp)
        · intro hk hmem
          have hsub := (spineSubRemove_le t _).1 _ hmem
          revert hsub
          cases hg : f.kind with
          | image =>
              simp only [hg]
              exact removeKey_not_mem f.key s.textures
          | json => exact absurd hg (by rw [hk]; simp)
          | text => exact absurd hg (by rw [hk]; simp)
      · exact ih _ f hft



theorem unloadStep_none (s : MLState) (k : String)
    (hl : lookupStr s.loadedTypeByKey k = none) : unloadStep s k = some s := by
  simp [unloadStep, hl]

theorem unloadStep_spec (s : MLState) (k : String) (info : LoadInfo)
    (hl : lookupStr s.loadedTypeByKey k = some info)
    (hsp : info.type = FetchKind.spine → info.multiFile.isSome = true) :
    ∃ s2, unloadStep s k = some s2 ∧
      s2.loadedTypeByKey = s.loadedTypeByKey.filter (fun e => e.1 ≠ k) ∧
      CacheLe s2 s ∧ Reversed k info s2 := by
  obtain ⟨typ, mf⟩ := info
  cases typ with
  | image =>
      refine ⟨{ s with textures := removeKey k s.textures,
                       loadedTypeByKey := s.loadedTypeByKey.filter (fun e => e.1 ≠ k) },
              ?_, rfl, ?_, ?_⟩
      · simp [unloadStep, hl]
      · exact ⟨fun x h => removeKey_sub _ _ _ h, fun _ h => h, fun _ h => h,
               fun _ h => h, fun _ h => h, fun _ h => h⟩
      · exact removeKey_not_mem _ _
  | spritesheet =>
      refine ⟨{ s with textures := removeKey k s.textures,
                       loadedTypeByKey := s.loadedTypeByKey.filter (fun e => e.1 ≠ k) },
              ?_, rfl, ?_, ?_⟩
      · simp [unloadStep, hl]
      · exact ⟨fun x h => removeKey_sub _ _ _ h, fun _ h => h, fun _ h => h,
               fun _ h => h, fun _ h => h, fun _ h => h⟩
      · exact removeKey_not_mem _ _
  | json =>
      refine ⟨{ s with jsonCache := removeKey k s.jsonCache,
                       loadedTypeByKey := s.loadedTypeByKey.filter (fun e => e.1 ≠ k) },
              ?_, rfl, ?_, ?_⟩
      · simp [unloadStep, hl]
      · exact ⟨fun _ h => h, fun x h => removeKey_sub _ _ _ h, fun _ h => h,
               fun _ h => h, fun _ h => h, fun _ h => h⟩
      · exact removeKey_not_mem _ _
  | audio =>
      refine ⟨{ s with soundRegistry := removeKey k s.soundRegistry,
                       audioCache := removeKey k s.audioCache,
                       loadedTypeByKey := s.loadedTypeByKey.filter (fun e => e.1 ≠ k) },
              ?_, rfl, ?_, ?_⟩
      · simp [unloadStep, hl]
      · exact ⟨fun _ h => h, fun _ h => h, fun x h => removeKey_sub _ _ _ h,
               fun _ h => h, fun _ h => h, fun x h => removeKey_sub _ _ _ h⟩
      · exact ⟨removeKey_not_mem _ _, removeKey_not_mem _ _⟩
  | atlas =>
      refine ⟨{ s with textures := removeKey k s.textures,
                       jsonCache := removeKey k s.jsonCache,
                       loadedTypeByKey := s.loadedTypeByKey.filter (fun e => e.1 ≠ k) },
              ?_, rfl, ?_, ?_⟩
      · simp [unloadStep, hl]
      · exact ⟨fun x h => removeKey_sub _ _ _ h, fun x h => removeKey_sub _ _ _ h,
               fun _ h => h, fun _ h => h, fun _ h => h, fun _ h => h⟩
      · exact ⟨removeKey_not_mem _ _, removeKey_not_mem _ _⟩
  | spine =>
      cases mf with
      | none => exact absurd (hsp rfl) (by simp)
      | some files =>
          by_cases hst : k ∈ (spineSubRemove files s).spineTextures
          · refine ⟨{ spineSubRemove files s with
                      spineCache := removeKey k (spineSubRemove files s).spineCache,
                      spineTextures := removeKey k (spineSubRemove files s).spineTextures,
                      loadedTypeByKey :=
                        (spineSubRemove files s).loadedTypeByKey.filter (fun e => e.1 ≠ k) },
                    ?_, ?_, ?_, ?_⟩
            · simp [unloadStep, hl, hst]
            · simp only [spineSubRemove_table]
            · refine CacheLe_trans _ _ _ ?_ (spineSubRemove_le files s)
              exact ⟨fun _ h => h, fun _ h => h, fun _ h => h,
                     fun x h => removeKey_sub _ _ _ h, fun x h => removeKey_sub _ _ _ h,
                     fun _ h => h⟩
            · refine ⟨removeKey_not_mem _ _, removeKey_not_mem _ _, ?_⟩
              intro files' hfeq f hf
              cases hfeq
              obtain ⟨hj, hi⟩ := spineSubRemove_removes files s f hf
              exact ⟨hj, hi⟩
          · refine ⟨{ spineSubRemove files s with
                      spineCache := removeKey k (spineSubRemove files s).spineCache,
                      loadedTypeByKey :=
                        (spineSubRemove files s).loadedTypeByKey.filter (fun e => e.1 ≠ k) },
                    ?_, ?_, ?_, ?_⟩
            · simp [unloadStep, hl, hst]
            · simp only [spineSubRemove_table]
            · refine CacheLe_trans _ _ _ ?_ (spineSubRemove_le files s)
              exact ⟨fun _ h => h, fun _ h => h, fun _ h => h,
                     fun x h => removeKey_sub _ _ _ h, fun _ h => h, fun _ h => h⟩
            · refine ⟨removeKey_not_mem _ _, hst, ?_⟩
              intro files' hfeq f hf
              cases hfeq
              obtain ⟨hj, hi⟩ := spineSubRemove_removes files s f hf
              exact ⟨hj, hi⟩



theorem lookupStr_cons_self {b : Type} (e : String × b) (t : List (String × b))
    (k : String) (h : e.1 = k) : lookupStr (e :: t) k = some e.2 := by
  simp [lookupStr, List.find?_cons, h]

theorem lookupStr_cons_ne {b : Type} (e : String × b) (t : List (String × b))
    (k : String) (h : ¬ (e.1 = k)) : lookupStr (e :: t) k = lookupStr t k := by
  simp [lookupStr, List.find?_cons, h]

theorem filter_cons_self (e : String × LoadInfo) (t : List (String × LoadInfo))
    (k : String) (h : e.1 = k) :
    (e :: t).filter (fun e => e.1 ≠ k) = t.filter (fun e => e.1 ≠ k) := by
  simp [List.filter_cons, h]

theorem filter_cons_ne (e : String × LoadInfo) (t : List (String × LoadInfo))
    (k : String) (h : ¬ (e.1 = k)) :
    (e :: t).filter (fun e => e.1 ≠ k) = e :: t.filter (fun e => e.1 ≠ k) := by
  simp [List.filter_cons, h]

theorem lookup_filter_ne (l : List (String × LoadInfo)) (k k' : String) (hne : k' ≠ k) :
    lookupStr (l.filter (fun e => e.1 ≠ k)) k' = lookupStr l k' := by
  induction l with
  | nil => rfl
  | cons e t ih =>
      by_cases hek : e.1 = k
      · have hek' : ¬ (e.1 = k') := fun h => hne (h.symm.trans hek)
        rw [filter_cons_self e t k hek, ih, lookupStr_cons_ne e t k' hek']
      · rw [filter_cons_ne e t k hek]
        by_cases hek2 : e.1 = k'
        · rw [lookupStr_cons_self e _ k' hek2, lookupStr_cons_self e t k' hek2]
        · rw [lookupStr_cons_ne e _ k' hek2, lookupStr_cons_ne e t k' hek2, ih]

theorem Reversed_mono (k : String) (info : LoadInfo) (s1 s2 : MLState)
    (hle : CacheLe s2 s1) (h : Reversed k info s1) : Reversed k info s2 := by
  obtain ⟨typ, mf⟩ := info
  cases typ with
  | image => exact fun hm => h (hle.1 _ hm)
  | spritesheet => exact fun hm => h (hle.1 _ hm)
  | json => exact fun hm => h (hle.2.1 _ hm)
  | audio => exact ⟨fun hm => h.1 (hle.2.2.2.2.2 _ hm), fun hm => h.2 (hle.2.2.1 _ hm)⟩
  | atlas => exact ⟨fun hm => h.1 (hle.1 _ hm), fun hm => h.2 (hle.2.1 _ hm)⟩
  | spine =>
      refine ⟨fun hm => h.1 (hle.2.2.2.1 _ hm), fun hm => h.2.1 (hle.2.2.2.2.1 _ hm), ?_⟩
      intro files hfeq f hf
      exact ⟨fun hk hm => (h.2.2 files hfeq f hf).1 hk (hle.2.1 _ hm),
             fun hk hm => (h.2.2 files hfeq f hf).2 hk (hle.1 _ hm)⟩

theorem SpineWF_of_sub (s s2 : MLState)
    (hsub : ∀ e ∈ s2.loadedTypeByKey, e ∈ s.loadedTypeByKey) (hwf : SpineWF s) :
    SpineWF s2 :=
  fun e he => hwf e (hsub e he)

theorem lookup_wf (s : MLState) (k : String) (info : LoadInfo) (hwf : SpineWF s)
    (hl : lookupStr s.loadedTypeByKey k = some info) :
    info.type = FetchKind.spine → info.multiFile.isSome = true := by
  unfold lookupStr at hl
  cases hf : s.loadedTypeByKey.find? (fun e => e.1 = k) with
  | none => rw [hf] at hl; cases hl
  | some e =>
      rw [hf] at hl
      have he : e ∈ s.loadedTypeByKey := List.mem_of_find?_eq_some hf
      have : e.2 = info := by cases hl; rfl
      rw [← this]
      exact hwf e he

theorem mlUnload_spec : ∀ (keys : List String) (s : MLState), SpineWF s →
    ∃ s2, mlUnload keys s = some s2 ∧
      s2.loadedTypeByKey = s.loadedTypeByKey.filter (fun e => ¬ e.1 ∈ keys) ∧
      CacheLe s2 s ∧
      ∀ k info, k ∈ keys → lookupStr s.loadedTypeByKey k = some info →
        Reversed k info s2 := by
  intro keys
  induction keys with
  | nil =>
      intro s _
      refine ⟨s, rfl, ?_, CacheLe_refl s, fun k info hk _ => absurd hk (List.not_mem_nil k)⟩
      symm
      simp [List.filter_eq_self]
  | cons k rest ih =>
      intro s hwf
      cases hl : lookupStr s.loadedTypeByKey k with
      | none =>
          obtain ⟨s2, hrun, htbl, hle, hrev⟩ := ih s hwf
          have hnone : s.loadedTypeByKey.find? (fun e => e.1 = k) = none := by
            unfold lookupStr at hl
            cases hf : s.loadedTypeByKey.find? (fun e => e.1 = k) with
            | none => rfl
            | some e => rw [hf] at hl; cases hl
          refine ⟨s2, ?_, ?_, hle, ?_⟩
          · simp [mlUnload, unloadStep_none s k hl, hrun]
          · rw [htbl]
            apply List.filter_congr
            intro e he
            have hek : ¬ (e.1 = k) := by
              have := List.find?_eq_none.mp hnone e he
              simpa using this
            simp [List.mem_cons, hek]
          · intro k' info hk' hlk
            rcases List.mem_cons.mp hk' with h | h
            · subst h; rw [hl] at hlk; cases hlk
            · exact hrev k' info h hlk
      | some info =>
          have hspi := lookup_wf s k info hwf hl
          obtain ⟨s1, hstep, htbl1, hle1, hrev1⟩ := unloadStep_spec s k info hl hspi
          have hwf1 : SpineWF s1 :=
            SpineWF_of_sub s s1
              (fun e he => List.mem_of_mem_filter (a := e) (htbl1 ▸ he)) hwf
          obtain ⟨s2, hrun, htbl2, hle2, hrev2⟩ := ih s1 hwf1
          refine ⟨s2, ?_, ?_, CacheLe_trans _ _ _ hle2 hle1, ?_⟩
          · simp [mlUnload, hstep, hrun]
          · rw [htbl2, htbl1, List.filter_filter]
            apply List.filter_congr
            intro e he
            by_cases h1 : e.1 = k <;> by_cases h2 : e.1 ∈ rest <;>
              simp [List.mem_cons, h1, h2]
          · intro k' info' hk' hlk
            by_cases hkk : k' = k
            · subst hkk
              rw [hl] at hlk
              have : info' = info := by cases hlk; rfl
              subst this
              exact Reversed_mono _ _ _ _ hle2 hrev1
            · have hlk1 : lookupStr s1.loadedTypeByKey k' = some info' := by
                rw [htbl1, lookup_filter_ne _ _ _ hkk]; exact hlk
              rcases List.mem_cons.mp hk' with h | h
              · exact absurd h hkk
              · exact hrev2 k' info' h hlk1



/-- Claim C6, counterexample: the claim is not unconditional over
ManagedLoader states.  On `c5run3` — reached through the public API by
`spine "s"; image "i"; spine "s"` with no unload in between — the spine
entry for "s" has lost its recorded multi-file, so `unload`'s spine
branch dereferences `info!.multiFile!.files` on an absent handle and the
run aborts (`none`): the load-entry table is not emptied and no reversal
is applied. -/
theorem c6_counterexample_unloadAll_aborts :
    lookupStr c5run3.loadedTypeByKey "s" = some ⟨FetchKind.spine, none⟩ ∧
    unloadAll c5run3 = none ∧
    ¬ SpineWF c5run3 := by
  decide

/-- Claim C6 as amended: on a loader whose every spine load entry records
its multi-file — the well-formedness the source's `info!.multiFile!`
dereference requires, and which holds unless a duplicate spine load was
issued after other queued files — after `unloadAll()` the load-entry
table is empty, the engine caches have only shrunk, and every recorded
key has had its kind-specific reversal applied: textures out of the
texture cache, json out of the JSON cache, audio out of both the sound
registry and the audio cache, atlas out of both texture and JSON caches,
and spine out of the spine caches with every recorded json/image
sub-file removed from its cache; unloading a key with no load entry is
silently ignored and changes nothing.  On a state violating that
well-formedness, `unloadAll` aborts on the dereference and performs none
of this (see the counterexample). -/
theorem c6_unloadAll_reverses (s : MLState) (hwf : SpineWF s) :
    (∃ s2, unloadAll s = some s2 ∧ s2.loadedTypeByKey = [] ∧ CacheLe s2 s ∧
      ∀ k info, lookupStr s.loadedTypeByKey k = some info → Reversed k info s2) ∧
    (∀ k, lookupStr s.loadedTypeByKey k = none → unloadStep s k = some s) := by
  constructor
  · obtain ⟨s2, hrun, htbl, hle, hrev⟩ := mlUnload_spec (tableKeys s) s hwf
    refine ⟨s2, hrun, ?_, hle, ?_⟩
    · rw [htbl]
      apply List.filter_eq_nil_iff.mpr
      intro e he
      have hm : e.1 ∈ tableKeys s := List.mem_map_of_mem (fun e => e.1) he
      simp [hm]
    · intro k info hlk
      have hmem : k ∈ tableKeys s := by
        unfold lookupStr at hlk
        cases hf : s.loadedTypeByKey.find? (fun e => e.1 = k) with
        | none => rw [hf] at hlk; cases hlk
        | some e =>
            have hp : e.1 = k := by simpa using List.find?_some hf
            have he : e ∈ s.loadedTypeByKey := List.mem_of_find?_eq_some hf
            rw [← hp]
            exact List.mem_map_of_mem (fun e => e.1) he
      exact hrev k info hmem hlk
  · exact fun k h => unloadStep_none s k h

/-- Witness for C6 on a drained loader holding one load of each kind. -/
theorem c6_unloadAll_reverses_witness :
    (∃ s2, unloadAll mlDrained = some s2 ∧ s2.loadedTypeByKey = [] ∧ CacheLe s2 mlDrained ∧
      ∀ k info, lookupStr mlDrained.loadedTypeByKey k = some info → Reversed k info s2) ∧
    (∀ k, lookupStr mlDrained.loadedTypeByKey k = none → unloadStep mlDrained k = some mlDrained) :=
  c6_unloadAll_reverses mlDrained (by decide)

end Spec2Proof
